import Mathlib

/-!
Verification of the static-site-generation (SSG) pipeline of this repository.

The definitions below are shallow embeddings of the TypeScript sources:
* `src/unnamed/part_005` — SSR renderer (`render`) and the config resolver
  (`DEFAULT_CONFIG`, `deepMerge`, `resolveConfig`).
* `src/unnamed/part_006` — page discovery (`extractSsgOptionsFromFile`,
  `discoverPages`).
* `src/unnamed/part_010` — island scanner (`hasIslandDirective`,
  `resolveComponentPath`, `getComponentName`, `scanForIslands`,
  `generateHydrationScript`).
* `src/unnamed/part_011` — browser-safe types, HTML template generator
  (`generateHtmlTemplate`) and CSS builder (`buildCssBundle`).
* `src/node_modules/vite-plugin-ssg/src/browser.ts` — image optimizer
  (`generateFilename`, `optimizeImages`, `generateImagePreloads`).
* `src/node_modules/vite-plugin-ssg/src/hydration-builder.ts` —
  `buildHydrationBundle`.
* `src/node_modules/vite-plugin-ssg/src/plugin/hosting/firebase.ts` —
  the Firebase hosting configurator.
* `src/node_modules/vite-plugin-ssg/src/Island.tsx` — the `Island` wrapper.

File-system reads, network downloads, the `sharp` transcoder and the Vite
bundler are external collaborators of the pipeline; they are modelled as
explicit parameters (finite maps / oracle functions), so every definition
stays executable.
-/

set_option autoImplicit false

namespace SSG

/-! ## JavaScript value model

`deepMerge` (src/unnamed/part_005, lines 154-188) is a generic function over
JavaScript objects.  We model the JavaScript values it can encounter:
`undef` is `undefined`, `vnull` is `null`, `varr` is an array (for which
`Array.isArray` is true) and `vobj` is a plain non-array object, given as an
association list of own enumerable properties in insertion order. -/

inductive JsValue where
  | undef : JsValue
  | vnull : JsValue
  | vbool : Bool → JsValue
  | vnum : Int → JsValue
  | vstr : String → JsValue
  | varr : List JsValue → JsValue
  | vobj : List (String × JsValue) → JsValue

namespace JsValue

/-- Property read `o[key]`: the first binding of `key`, or `undefined` when
the key is absent (JavaScript returns `undefined` for missing properties). -/
def getProp (fields : List (String × JsValue)) (k : String) : JsValue :=
  match fields.find? (fun p => p.1 == k) with
  | some p => p.2
  | none => JsValue.undef

/-- Property write `o[key] = v`: overwrite the existing binding in place, or
append a new binding at the end (JavaScript insertion-order semantics; a
JavaScript object holds at most one binding per key). -/
def setProp : List (String × JsValue) → String → JsValue →
    List (String × JsValue)
  | [], k, v => [(k, v)]
  | p :: rest, k, v =>
      if p.1 == k then (k, v) :: rest else p :: setProp rest k v

/-- Object spread `{...target, ...source}`: every own enumerable property of
`source` (including properties whose value is `undefined`) is assigned onto a
copy of `target`. -/
def spreadObj (target source : List (String × JsValue)) :
    List (String × JsValue) :=
  source.foldl (fun acc p => setProp acc p.1 p.2) target

end JsValue

open JsValue

/-- One iteration of the `for (const key of Object.keys(source))` loop of
`deepMerge` (src/unnamed/part_005, lines 160-185): skip `undefined` source
values; if both the source value and the current result value are non-array,
non-null objects, assign the spread `{...targetValue, ...sourceValue}`;
otherwise assign the source value. -/
def deepMergeStep (result : List (String × JsValue)) (kv : String × JsValue) :
    List (String × JsValue) :=
  match kv.2 with
  | JsValue.undef => result
  | JsValue.vobj sf =>
      match getProp result kv.1 with
      | JsValue.vobj tf => setProp result kv.1 (JsValue.vobj (spreadObj tf sf))
      | _ => setProp result kv.1 (JsValue.vobj sf)
  | sv => setProp result kv.1 sv

/-- `deepMerge(target, source)` of src/unnamed/part_005, lines 154-188, on the
property lists of the two objects.  The result starts as `{...target}` and the
source keys are processed in insertion order. -/
def deepMerge (target source : List (String × JsValue)) :
    List (String × JsValue) :=
  source.foldl deepMergeStep target

/-- `DEFAULT_CONFIG` of src/unnamed/part_005, lines 115-149, as a JavaScript
object (property list). -/
def DEFAULT_CONFIG : List (String × JsValue) :=
  [ ("outDir", JsValue.vstr "dist/static"),
    ("baseUrl", JsValue.vstr "/static"),
    ("srcDir", JsValue.vstr "src"),
    ("vite", JsValue.vobj [("plugins", JsValue.varr [])]),
    ("images", JsValue.vobj
      [ ("enabled", JsValue.vbool true),
        ("formats", JsValue.varr [JsValue.vstr "webp"]),
        ("quality", JsValue.vnum 80),
        ("generateSrcset", JsValue.vbool true),
        ("srcsetMultipliers", JsValue.varr [JsValue.vnum 1, JsValue.vnum 2]),
        ("lcpImageCount", JsValue.vnum 4) ]),
    ("css", JsValue.vobj
      [ ("minify", JsValue.vstr "lightningcss"),
        ("globalCssPath", JsValue.vstr "src/index.css") ]),
    ("js", JsValue.vobj
      [ ("minify", JsValue.vstr "terser"),
        ("target", JsValue.vstr "es2020"),
        ("terserOptions", JsValue.vobj
          [ ("dropConsole", JsValue.vbool true),
            ("dropDebugger", JsValue.vbool true),
            ("passes", JsValue.vnum 2) ]) ]),
    ("html", JsValue.vobj
      [ ("headTags", JsValue.vstr ""),
        ("bodyTags", JsValue.vstr ""),
        ("lang", JsValue.vstr "en") ]),
    ("logLevel", JsValue.vstr "info") ]

/-- `resolveConfig(userConfig)` of src/unnamed/part_005, lines 196-198:
merge the user configuration over `DEFAULT_CONFIG`. -/
def resolveConfig (userConfig : List (String × JsValue)) :
    List (String × JsValue) :=
  deepMerge DEFAULT_CONFIG userConfig

/-! ### Helper predicates on JavaScript values -/

/-- `v === undefined`. -/
def isUndef : JsValue → Bool
  | JsValue.undef => true
  | _ => false

/-- The keys of a property list are pairwise distinct (every genuine
JavaScript object satisfies this). -/
def nodupKeys : List (String × JsValue) → Bool
  | [] => true
  | p :: rest => !(rest.any (fun q => q.1 == p.1)) && nodupKeys rest

/-- No property of the list has the value `undefined`. -/
def noUndefValues (fields : List (String × JsValue)) : Bool :=
  fields.all (fun p => !(isUndef p.2))

/-- Read a nested property path: `getPath v [k1, k2]` is `v[k1][k2]`, with
`undefined` for any failure along the way. -/
def getPath : JsValue → List String → JsValue
  | v, [] => v
  | JsValue.vobj fields, k :: rest => getPath (getProp fields k) rest
  | _, _ :: _ => JsValue.undef

/-- Every property path at which `DEFAULT_CONFIG` has a defined value
(leaves and interior objects alike). -/
def defaultConfigPaths : List (List String) :=
  [ ["outDir"], ["baseUrl"], ["srcDir"],
    ["vite"], ["vite", "plugins"],
    ["images"], ["images", "enabled"], ["images", "formats"],
    ["images", "quality"], ["images", "generateSrcset"],
    ["images", "srcsetMultipliers"], ["images", "lcpImageCount"],
    ["css"], ["css", "minify"], ["css", "globalCssPath"],
    ["js"], ["js", "minify"], ["js", "target"], ["js", "terserOptions"],
    ["js", "terserOptions", "dropConsole"],
    ["js", "terserOptions", "dropDebugger"],
    ["js", "terserOptions", "passes"],
    ["html"], ["html", "headTags"], ["html", "bodyTags"], ["html", "lang"],
    ["logLevel"] ]

/-- The merge of a single key as `deepMerge` performs it: `undefined` user
values are skipped; two non-array objects are spread one level deep;
anything else is replaced by the user value. -/
def mergeValue (tv sv : JsValue) : JsValue :=
  match sv with
  | JsValue.undef => tv
  | JsValue.vobj sf =>
      match tv with
      | JsValue.vobj tf => JsValue.vobj (spreadObj tf sf)
      | _ => JsValue.vobj sf
  | _ => sv

/-! ### Lemmas about property access and the merge -/

theorem getProp_cons (p : String × JsValue) (fs : List (String × JsValue))
    (x : String) :
    getProp (p :: fs) x = if p.1 = x then p.2 else getProp fs x := by
  by_cases h : p.1 = x
  · simp [getProp, List.find?_cons, h]
  · simp [getProp, List.find?_cons, h]

theorem getProp_eq_undef_of_no_key (fs : List (String × JsValue)) (k : String)
    (h : fs.any (fun p => p.1 == k) = false) :
    getProp fs k = JsValue.undef := by
  induction fs with
  | nil => rfl
  | cons p rest ih =>
      simp only [List.any_cons, Bool.or_eq_false_iff] at h
      rw [getProp_cons, if_neg (by simpa using h.1)]
      exact ih h.2

theorem getProp_setProp (fs : List (String × JsValue)) (k x : String)
    (v : JsValue) :
    getProp (setProp fs k v) x = if x = k then v else getProp fs x := by
  induction fs with
  | nil =>
      show getProp [(k, v)] x = if x = k then v else getProp [] x
      rw [getProp_cons]
      by_cases h : x = k
      · simp [h]
      · rw [if_neg (fun hh => h hh.symm), if_neg h]
  | cons p rest ih =>
      simp only [setProp]
      by_cases hpk : p.1 = k
      · rw [if_pos (by simpa using hpk), getProp_cons, getProp_cons]
        by_cases hxk : x = k
        · simp [hxk]
        · rw [if_neg (fun hh : k = x => hxk hh.symm),
            if_neg (fun hh : p.1 = x => hxk (hpk.symm.trans hh).symm),
            if_neg hxk]
      · rw [if_neg (by simpa using hpk), getProp_cons, getProp_cons]
        by_cases hpx : p.1 = x
        · rw [if_pos hpx, if_pos hpx,
            if_neg (fun hh : x = k => hpk (hpx.trans hh))]
        · rw [if_neg hpx, if_neg hpx, ih]

theorem mergeValue_undef (tv : JsValue) : mergeValue tv JsValue.undef = tv :=
  rfl

/-- What one loop iteration of `deepMerge` leaves at each key. -/
theorem getProp_deepMergeStep (target : List (String × JsValue))
    (q : String × JsValue) (x : String) :
    getProp (deepMergeStep target q) x
      = if x = q.1 then mergeValue (getProp target q.1) q.2
        else getProp target x := by
  cases hq2 : q.2 with
  | undef =>
      simp only [deepMergeStep, hq2, mergeValue_undef]
      by_cases hx : x = q.1
      · rw [if_pos hx, hx]
      · rw [if_neg hx]
  | vobj sf =>
      simp only [deepMergeStep, hq2]
      cases htv : getProp target q.1 with
      | vobj tf => rw [getProp_setProp]; simp only [mergeValue, htv]
      | undef => rw [getProp_setProp]; simp only [mergeValue, htv]
      | vnull => rw [getProp_setProp]; simp only [mergeValue, htv]
      | vbool b => rw [getProp_setProp]; simp only [mergeValue, htv]
      | vnum n => rw [getProp_setProp]; simp only [mergeValue, htv]
      | vstr s => rw [getProp_setProp]; simp only [mergeValue, htv]
      | varr xs => rw [getProp_setProp]; simp only [mergeValue, htv]
  | vnull => simp only [deepMergeStep, hq2, getProp_setProp, mergeValue]
  | vbool b => simp only [deepMergeStep, hq2, getProp_setProp, mergeValue]
  | vnum n => simp only [deepMergeStep, hq2, getProp_setProp, mergeValue]
  | vstr s => simp only [deepMergeStep, hq2, getProp_setProp, mergeValue]
  | varr xs => simp only [deepMergeStep, hq2, getProp_setProp, mergeValue]

/-- The value `deepMerge` leaves at key `k`, when the source object has no
duplicate keys, is exactly the single-key merge of the two original values.
`getProp source k = undef` covers both an absent key and a key explicitly
set to `undefined` — the loop skips both. -/
theorem getProp_deepMerge (source target : List (String × JsValue))
    (k : String) (h : nodupKeys source = true) :
    getProp (deepMerge target source) k
      = mergeValue (getProp target k) (getProp source k) := by
  induction source generalizing target with
  | nil => simp [deepMerge, getProp, mergeValue, List.find?]
  | cons q rest ih =>
      have hsplit := h
      simp only [nodupKeys, Bool.and_eq_true, Bool.not_eq_true',
        Bool.not_eq_true] at hsplit
      have hnotin : rest.any (fun p => p.1 == q.1) = false := hsplit.1
      have hnr : nodupKeys rest = true := hsplit.2
      show getProp (deepMerge (deepMergeStep target q) rest) k = _
      rw [ih (deepMergeStep target q) hnr, getProp_deepMergeStep,
        getProp_cons]
      by_cases hk : k = q.1
      · have hrest : getProp rest k = JsValue.undef :=
          getProp_eq_undef_of_no_key rest k (by rw [hk]; exact hnotin)
        rw [if_pos hk, if_pos hk.symm, hrest, mergeValue_undef, hk]
      · rw [if_neg hk, if_neg (fun hh : q.1 = k => hk hh.symm)]

/-- Spreading properties whose values are all defined over an object keeps
every key defined that was defined before. -/
theorem getProp_spreadObj_ne_undef (uf : List (String × JsValue))
    (df : List (String × JsValue)) (x : String)
    (hu : noUndefValues uf = true)
    (hd : isUndef (getProp df x) = false) :
    isUndef (getProp (spreadObj df uf) x) = false := by
  induction uf generalizing df with
  | nil => simpa [spreadObj] using hd
  | cons q rest ih =>
      have hq : isUndef q.2 = false := by
        have := (List.all_eq_true.mp hu) q (by simp)
        simpa using this
      have hrest : noUndefValues rest = true := by
        refine List.all_eq_true.mpr ?_
        intro p hp
        exact (List.all_eq_true.mp hu) p (by simp [hp])
      show isUndef (getProp (spreadObj (setProp df q.1 q.2) rest) x) = false
      refine ih (setProp df q.1 q.2) hrest ?_
      rw [getProp_setProp]
      by_cases hx : x = q.1
      · simpa [hx] using hq
      · simpa [hx] using hd

theorem isUndef_mergeValue (tv sv : JsValue) (h : isUndef tv = false) :
    isUndef (mergeValue tv sv) = false := by
  cases sv with
  | undef => exact h
  | vobj sf => cases tv <;> rfl
  | vnull => rfl
  | vbool b => rfl
  | vnum n => rfl
  | vstr s => rfl
  | varr xs => rfl

/-- Every top-level key of `DEFAULT_CONFIG` maps to a defined value in the
resolution result. -/
def topPopulated (res : List (String × JsValue)) : Bool :=
  DEFAULT_CONFIG.all (fun p => !(isUndef (getProp res p.1)))

/-- The second configuration level under top-level key `k`: every key the
default group object defines maps to a defined value in the resolved group
(vacuously true where the default value is not an object). -/
def groupPopulated (k : String) (res : List (String × JsValue)) : Bool :=
  match getProp DEFAULT_CONFIG k, getProp res k with
  | JsValue.vobj df, JsValue.vobj rf =>
      df.all (fun q => !(isUndef (getProp rf q.1)))
  | JsValue.vobj _, _ => false
  | _, _ => true

theorem topPopulated_deepMergeStep (acc : List (String × JsValue))
    (q : String × JsValue) (h : topPopulated acc = true) :
    topPopulated (deepMergeStep acc q) = true := by
  refine List.all_eq_true.mpr ?_
  intro p hp
  have hbase : isUndef (getProp acc p.1) = false := by
    have := (List.all_eq_true.mp h) p hp
    simpa using this
  rw [getProp_deepMergeStep]
  by_cases hpq : p.1 = q.1
  · rw [if_pos hpq]
    simp only [Bool.not_eq_eq_eq_not, Bool.not_true]
    exact isUndef_mergeValue _ _ (hpq ▸ hbase)
  · rw [if_neg hpq]
    simpa using hbase

theorem topPopulated_deepMerge (user acc : List (String × JsValue))
    (h : topPopulated acc = true) :
    topPopulated (deepMerge acc user) = true := by
  induction user generalizing acc with
  | nil => exact h
  | cons q rest ih => exact ih _ (topPopulated_deepMergeStep acc q h)

theorem topPopulated_default : topPopulated DEFAULT_CONFIG = true := by decide

theorem exists_mem_of_getProp (fs : List (String × JsValue)) (k : String)
    (v : JsValue) (hv : getProp fs k = v) (hne : isUndef v = false) :
    ∃ p ∈ fs, p.2 = v := by
  induction fs with
  | nil => subst hv; simp [getProp, List.find?, isUndef] at hne
  | cons p rest ih =>
      rw [getProp_cons] at hv
      by_cases h : p.1 = k
      · rw [if_pos h] at hv
        exact ⟨p, by simp, hv⟩
      · rw [if_neg h] at hv
        obtain ⟨q, hq, hq2⟩ := ih hv
        exact ⟨q, by simp [hq], hq2⟩

/-- Each object-valued group of `DEFAULT_CONFIG` has all of its own fields
defined (a concrete evaluation of the default configuration). -/
theorem default_groups_defined :
    (DEFAULT_CONFIG.all (fun p =>
      match p.2 with
      | JsValue.vobj f2 => f2.all (fun q => !(isUndef (getProp f2 q.1)))
      | _ => true)) = true := by decide

/-- Every path in `defaultConfigPaths` is indeed defined in
`DEFAULT_CONFIG` (so the list does enumerate defined default fields). -/
theorem defaultConfigPaths_defined :
    (defaultConfigPaths.all
      (fun pth => !(isUndef (getPath (JsValue.vobj DEFAULT_CONFIG) pth))))
      = true := by decide

theorem resolveConfig_topPopulated (user : List (String × JsValue)) :
    topPopulated (resolveConfig user) = true :=
  topPopulated_deepMerge user DEFAULT_CONFIG topPopulated_default

theorem resolveConfig_groupPopulated (user : List (String × JsValue))
    (k : String) (uf : List (String × JsValue))
    (h1 : nodupKeys user = true)
    (h2 : getProp user k = JsValue.vobj uf)
    (h3 : noUndefValues uf = true) :
    groupPopulated k (resolveConfig user) = true := by
  have hmain := getProp_deepMerge user DEFAULT_CONFIG k h1
  rw [h2] at hmain
  unfold groupPopulated
  cases hdv : getProp DEFAULT_CONFIG k with
  | vobj df =>
      rw [hdv] at hmain
      have hres : getProp (resolveConfig user) k
          = JsValue.vobj (spreadObj df uf) := hmain
      rw [hres]
      have hdf : df.all (fun q => !(isUndef (getProp df q.1))) = true := by
        obtain ⟨p, hp, hp2⟩ :=
          exists_mem_of_getProp DEFAULT_CONFIG k (JsValue.vobj df) hdv rfl
        have hall := (List.all_eq_true.mp default_groups_defined) p hp
        rw [hp2] at hall
        exact hall
      refine List.all_eq_true.mpr ?_
      intro q hq
      have hqdf : isUndef (getProp df q.1) = false := by
        have := (List.all_eq_true.mp hdf) q hq
        simpa using this
      have := getProp_spreadObj_ne_undef uf df q.1 h3 hqdf
      simpa using this
  | undef => rfl
  | vnull => rfl
  | vbool b => rfl
  | vnum n => rfl
  | vstr s => rfl
  | varr xs => rfl

/-- **C1** — counterexample.  The claim states that for every user build
configuration, every field that `DEFAULT_CONFIG` defines — including nested
fields such as the terser tuning options under the `js` group — is defined in
the result of `resolveConfig` (formally: for every `user` and every `pth` in
`defaultConfigPaths`, `isUndef (getPath (vobj (resolveConfig user)) pth) =
false`).  It is false: `deepMerge` merges only one level deep, so the user
config `{js: {terserOptions: {passes: 5}}}` replaces the whole default
`js.terserOptions` object, leaving `js.terserOptions.dropConsole`
undefined. -/
theorem C1_counterexample :
    (defaultConfigPaths.contains ["js", "terserOptions", "dropConsole"])
      = true
    ∧ isUndef (getPath (JsValue.vobj DEFAULT_CONFIG)
        ["js", "terserOptions", "dropConsole"]) = false
    ∧ isUndef (getPath (JsValue.vobj (resolveConfig
        [("js", JsValue.vobj [("terserOptions",
           JsValue.vobj [("passes", JsValue.vnum 5)])])]))
        ["js", "terserOptions", "dropConsole"]) = true :=
  ⟨rfl, rfl, rfl⟩

/-- **C1** (amended).  `resolveConfig` populates the configuration one merge
level deep: (1) for every user configuration object, every top-level field of
`DEFAULT_CONFIG` is defined in the result; and (2) for a top-level key whose
user value is an object none of whose own fields is explicitly `undefined`
(and the user object has no duplicate keys, as every genuine JavaScript
object does), every second-level field the default group defines is defined
in the resolved group.  Fields of objects nested deeper (the terser tuning
options under the `js` group) are *not* protected: a partial user override
replaces such a nested object wholesale (see the counterexample). -/
theorem C1_theorem_resolveConfig_populated_one_level :
    (∀ user : List (String × JsValue),
      topPopulated (resolveConfig user) = true)
    ∧ (∀ (user : List (String × JsValue)) (k : String)
        (uf : List (String × JsValue)),
        nodupKeys user = true →
        getProp user k = JsValue.vobj uf →
        noUndefValues uf = true →
        groupPopulated k (resolveConfig user) = true) :=
  ⟨resolveConfig_topPopulated, resolveConfig_groupPopulated⟩

/-- **C1** — witness: the amended theorem applied to the concrete user
configuration `{js: {minify: "esbuild"}}` and top-level key `js`. -/
theorem C1_witness :
    topPopulated (resolveConfig
      [("js", JsValue.vobj [("minify", JsValue.vstr "esbuild")])]) = true
    ∧ groupPopulated "js" (resolveConfig
      [("js", JsValue.vobj [("minify", JsValue.vstr "esbuild")])]) = true :=
  ⟨C1_theorem_resolveConfig_populated_one_level.1
      [("js", JsValue.vobj [("minify", JsValue.vstr "esbuild")])],
    C1_theorem_resolveConfig_populated_one_level.2
      [("js", JsValue.vobj [("minify", JsValue.vstr "esbuild")])] "js"
      [("minify", JsValue.vstr "esbuild")] rfl rfl rfl⟩

/-- **C8** — counterexample.  The claim states that *every* top-level key
present in the user configuration either merges field-by-field (when both
values are non-array objects) or resolves to *exactly the user value*.  A key
that is present with the value `undefined` is a counterexample: the loop in
`deepMerge` skips it (`if (sourceValue === undefined) continue`), so the
resolved value is the default `"dist/static"`, not the user value
`undefined`. -/
theorem C8_counterexample :
    getProp [("outDir", JsValue.undef)] "outDir" = JsValue.undef
    ∧ getProp (resolveConfig [("outDir", JsValue.undef)]) "outDir"
        = JsValue.vstr "dist/static"
    ∧ isUndef (JsValue.vstr "dist/static") = false :=
  ⟨rfl, rfl, rfl⟩

/-- **C8** (amended).  For every top-level key of a (duplicate-free) user
configuration whose value is *defined*: if both the default value and the
user value are non-array objects, the resolved value is their field-by-field
union with the user fields winning per field (object spread); otherwise —
including every array-valued field — the resolved value is exactly the user
value, never a concatenation or element-wise merge.  A key present with the
value `undefined` is skipped and keeps the default (the correction). -/
def specMergeValue (sv dv : JsValue) : JsValue :=
  match sv, dv with
  | JsValue.vobj sf, JsValue.vobj df => JsValue.vobj (spreadObj df sf)
  | _, _ => sv

/-- **C8** (amended) — the per-key merge law of `resolveConfig`, see
`specMergeValue` for the two cases the claim describes. -/
theorem C8_theorem_merge_per_key (user : List (String × JsValue))
    (k : String) (sv : JsValue)
    (h1 : nodupKeys user = true)
    (h2 : getProp user k = sv)
    (h3 : isUndef sv = false) :
    getProp (resolveConfig user) k
      = specMergeValue sv (getProp DEFAULT_CONFIG k) := by
  rw [resolveConfig, getProp_deepMerge user DEFAULT_CONFIG k h1, h2]
  unfold specMergeValue
  cases sv with
  | undef => simp [isUndef] at h3
  | vobj sf => cases getProp DEFAULT_CONFIG k <;> rfl
  | vnull => cases getProp DEFAULT_CONFIG k <;> rfl
  | vbool b => cases getProp DEFAULT_CONFIG k <;> rfl
  | vnum n => cases getProp DEFAULT_CONFIG k <;> rfl
  | vstr s => cases getProp DEFAULT_CONFIG k <;> rfl
  | varr xs => cases getProp DEFAULT_CONFIG k <;> rfl

/-- **C8** — witness: the amended theorem applied to two concrete keys.
Overriding the object-valued key `images` with `{quality: 50}` merges
field-by-field with the user winning on `quality`; overriding the
array-valued field `vite.plugins` as part of `{vite: {plugins: [x]}}`
replaces the default array wholesale (the nested array is the user array,
not a concatenation). -/
theorem C8_witness :
    getProp (resolveConfig
        [("images", JsValue.vobj [("quality", JsValue.vnum 50)])]) "images"
      = JsValue.vobj
          [ ("enabled", JsValue.vbool true),
            ("formats", JsValue.varr [JsValue.vstr "webp"]),
            ("quality", JsValue.vnum 50),
            ("generateSrcset", JsValue.vbool true),
            ("srcsetMultipliers",
              JsValue.varr [JsValue.vnum 1, JsValue.vnum 2]),
            ("lcpImageCount", JsValue.vnum 4) ]
    ∧ getProp (resolveConfig
        [("vite", JsValue.vobj
           [("plugins", JsValue.varr [JsValue.vstr "myPlugin"])])]) "vite"
      = JsValue.vobj
          [("plugins", JsValue.varr [JsValue.vstr "myPlugin"])] :=
  ⟨C8_theorem_merge_per_key
      [("images", JsValue.vobj [("quality", JsValue.vnum 50)])] "images"
      (JsValue.vobj [("quality", JsValue.vnum 50)]) rfl rfl rfl,
    C8_theorem_merge_per_key
      [("vite", JsValue.vobj
         [("plugins", JsValue.varr [JsValue.vstr "myPlugin"])])] "vite"
      (JsValue.vobj [("plugins", JsValue.varr [JsValue.vstr "myPlugin"])])
      rfl rfl rfl⟩

/-! ## JavaScript string primitives

The pipeline manipulates strings with `startsWith`, `endsWith`, `includes`,
`split`, `trim`.  We implement them over the character list of the string so
that every definition evaluates by kernel reduction. -/

/-- `s.startsWith(pat)`. -/
def jsStartsWith (s pat : String) : Bool :=
  pat.data.isPrefixOf s.data

/-- `s.endsWith(pat)`. -/
def jsEndsWith (s pat : String) : Bool :=
  pat.data.isSuffixOf s.data

/-- `split` on a single separator character, on character lists. -/
def splitOnCharList (c : Char) : List Char → List (List Char)
  | [] => [[]]
  | d :: rest =>
      let r := splitOnCharList c rest
      if d == c then [] :: r
      else
        match r with
        | [] => [[d]]
        | h :: t => (d :: h) :: t

/-- `s.split(c)` for a one-character separator. -/
def jsSplitChar (s : String) (c : Char) : List String :=
  (splitOnCharList c s.data).map (fun cs => String.mk cs)

/-- Strip leading and trailing whitespace from a character list. -/
def trimChars (cs : List Char) : List Char :=
  ((cs.dropWhile Char.isWhitespace).reverse.dropWhile
    Char.isWhitespace).reverse

/-- `s.trim()`. -/
def jsTrim (s : String) : String :=
  String.mk (trimChars s.data)

/-! ## Firebase hosting configurator
(src/node_modules/vite-plugin-ssg/src/plugin/hosting/firebase.ts) -/

/-- A Firebase rewrite rule; `destination` is optional, as in the
`FirebaseRewrite` interface (rules can also carry `function`/`run` targets,
which the configurator never creates and only inspects via `destination`). -/
structure FirebaseRewrite where
  source : String
  destination : Option String

/-- `GeneratedPage` handed from the orchestrator to the hosting
configurator. -/
structure GeneratedPage where
  slug : String
  routeUrl : String
  htmlPath : String

/-- `isSsgRewrite` (firebase.ts, lines 45-51): a rule is SSG-managed iff its
destination is truthy, starts with `baseUrl + "/"` and ends in `.html`. -/
def isSsgRewrite (r : FirebaseRewrite) (baseUrl : String) : Bool :=
  match r.destination with
  | none => false
  | some d =>
      !(d == "") && jsStartsWith d (baseUrl ++ "/") && jsEndsWith d ".html"

/-- The rewrite-array computation of `configure` (firebase.ts, lines
92-119): drop previously SSG-managed rules, build one rule per generated
page, and splice the new rules in immediately before the first catch-all
rule (source `**` or `/**`), or prepend them when no catch-all exists. -/
def configureRewrites (existing : List FirebaseRewrite)
    (pages : List GeneratedPage) (baseUrl : String) : List FirebaseRewrite :=
  let existingRewrites := existing.filter (fun r => !(isSsgRewrite r baseUrl))
  let ssgRewrites : List FirebaseRewrite := pages.map (fun page =>
    { source := if page.routeUrl == "/" then "/" else page.routeUrl,
      destination := some (baseUrl ++ "/" ++ page.slug ++ ".html") })
  match existingRewrites.findIdx?
      (fun r => r.source == "**" || r.source == "/**") with
  | some catchAllIndex =>
      existingRewrites.take catchAllIndex ++ ssgRewrites
        ++ existingRewrites.drop catchAllIndex
  | none => ssgRewrites ++ existingRewrites

/-- **C7** (confirmed).  On the manifest rewrites
`[{source: "**", destination: "/index.html"}]`, one generated page
`{slug: "home", routeUrl: "/"}` and base URL `/static`, the configurator
inserts `{source: "/", destination: "/static/home.html"}` immediately before
the catch-all rule and leaves the catch-all unchanged. -/
theorem C7_theorem_firebase_example :
    configureRewrites
      [{ source := "**", destination := some "/index.html" }]
      [{ slug := "home", routeUrl := "/", htmlPath := "home.html" }]
      "/static"
      = [ { source := "/", destination := some "/static/home.html" },
          { source := "**", destination := some "/index.html" } ] := rfl

/-! ## CSS builder cleanup
(src/unnamed/part_011, `buildCssBundle`, lines 276-282) -/

/-- Substring test on character lists (`JavaScript String.prototype.includes`
for the needle `pat`). -/
def listHasSubstr (pat : List Char) : List Char → Bool
  | [] => pat.isEmpty
  | c :: rest => pat.isPrefixOf (c :: rest) || listHasSubstr pat rest

/-- `s.includes(pat)`. -/
def hasSubstr (s pat : String) : Bool :=
  listHasSubstr pat.data s.data

/-- The deletion condition of the post-build loop of `buildCssBundle`:
`file.endsWith(".js") && !file.includes("hydrate")`. -/
def cssJunkFile (f : String) : Bool :=
  jsEndsWith f ".js" && !(hasSubstr f "hydrate")

/-- The post-build cleanup loop of `buildCssBundle` (lines 277-282): iterate
over the output-directory listing, unlink every name satisfying
`cssJunkFile`.  Returns `(remaining, deleted)`. -/
def buildCssCleanup (files : List String) : List String × List String :=
  files.foldl (fun acc f =>
    if cssJunkFile f then (acc.1, acc.2 ++ [f])
    else (acc.1 ++ [f], acc.2)) ([], [])

theorem buildCssCleanup_aux (files : List String)
    (acc : List String × List String) :
    files.foldl (fun acc f =>
      if cssJunkFile f then (acc.1, acc.2 ++ [f])
      else (acc.1 ++ [f], acc.2)) acc
      = (acc.1 ++ files.filter (fun f => !(cssJunkFile f)),
         acc.2 ++ files.filter cssJunkFile) := by
  induction files generalizing acc with
  | nil => simp
  | cons f rest ih =>
      cases hf : cssJunkFile f with
      | true =>
          show (rest.foldl _ _) = _
          rw [ih]
          simp [hf, List.filter]
      | false =>
          show (rest.foldl _ _) = _
          rw [ih]
          simp [hf, List.filter]

/-- **C4** — counterexample.  The claim states that the only files removed
after a CSS build are the JS artifacts that this very build emitted, and that
files the build did not emit are left untouched.  Take an output directory
listing `["vendor.js", "home.js", "home.css"]` where the build emitted only
`home.js` and `home.css`: the cleanup loop also deletes the pre-existing
`vendor.js`, which the build did not emit. -/
theorem C4_counterexample :
    (buildCssCleanup ["vendor.js", "home.js", "home.css"]).2
      = ["vendor.js", "home.js"]
    ∧ ("vendor.js" ∈ (["home.js", "home.css"] : List String) → False) := by
  constructor
  · rfl
  · intro h
    simp at h

/-- **C4** (amended).  After a CSS build, the files removed from the output
directory are exactly those whose names end in `.js` and do not contain the
substring `hydrate` — regardless of whether this build emitted them; every
other file (the emitted CSS, generated HTML, and the `-hydrate.js` bundles of
any page) is kept, in order. -/
theorem C4_theorem_css_cleanup (files : List String) :
    (buildCssCleanup files).2 = files.filter cssJunkFile
    ∧ (buildCssCleanup files).1 = files.filter (fun f => !(cssJunkFile f)) := by
  unfold buildCssCleanup
  rw [buildCssCleanup_aux]
  exact ⟨by simp, by simp⟩

/-! ## Island scanner — reference validation
(src/unnamed/part_010, lines 23-65 and 179-205)

The file system is an explicit association list mapping absolute paths to
file contents; `fs.readFileSync` on a missing path throws, which
`hasIslandDirective` catches and turns into `false`. -/

/-- Contents of the file at `p`, or `none` when it does not exist. -/
def readFile? (fs : List (String × String)) (p : String) : Option String :=
  (fs.find? (fun q => q.1 == p)).map (fun q => q.2)

/-- `fs.existsSync(p) && fs.statSync(p).isFile()` (the model holds only
regular files). -/
def fileExists (fs : List (String × String)) (p : String) : Bool :=
  (readFile? fs p).isSome

/-- `path.join(dir, rel)` for a directory prefix and a clean relative
segment (no `.`/`..` normalisation is exercised by the scanner). -/
def pathJoin (dir rel : String) : String :=
  dir ++ "/" ++ rel

/-- The language of the directive regex `/^[\x27"]use island[\x27"];?$/`:
an opening single or double quote, the literal `use island`, a closing
single or double quote (the regex does not force it to match the opening
one), and an optional trailing semicolon. -/
def directiveLine (s : String) : Bool :=
  s == "\x27use island\x27" || s == "\x22use island\x22" ||
  s == "\x27use island\x22" || s == "\x22use island\x27" ||
  s == "\x27use island\x27;" || s == "\x22use island\x22;" ||
  s == "\x27use island\x22;" || s == "\x22use island\x27;"

/-- `hasIslandDirective` (src/unnamed/part_010, lines 23-32): read the file,
take `content.split("\n")[0].trim()` — the *first* line, trimmed — and test
it against the directive regex; a read failure yields `false`. -/
def hasIslandDirective (fs : List (String × String)) (filePath : String) :
    Bool :=
  match readFile? fs filePath with
  | none => false
  | some content =>
      directiveLine (jsTrim ((jsSplitChar content '\n').headD ""))

/-- `resolveComponentPath` (src/unnamed/part_010, lines 37-58): join the
source root and the reference, try the four extensions on the path itself,
then the four `index.*` fallbacks. -/
def resolveComponentPath (fs : List (String × String))
    (componentPath srcDir : String) : Option String :=
  let basePath := pathJoin srcDir componentPath
  let extensions := [".tsx", ".ts", ".jsx", ".js"]
  match extensions.find? (fun ext => fileExists fs (basePath ++ ext)) with
  | some ext => some (basePath ++ ext)
  | none =>
      match extensions.find?
          (fun ext => fileExists fs (pathJoin basePath ("index" ++ ext))) with
      | some ext => some (pathJoin basePath ("index" ++ ext))
      | none => none

/-- `getComponentName` (src/unnamed/part_010, lines 63-65):
`componentPath.split("/").pop() || componentPath`. -/
def getComponentName (componentPath : String) : String :=
  let last := (jsSplitChar componentPath '/').getLastD ""
  if last == "" then componentPath else last

/-- An island reference record (`IslandInfo` of src/unnamed/part_010). -/
structure IslandInfo where
  name : String
  filePath : String
  importPath : String

/-- One iteration of the validation loop of `scanForIslands`
(src/unnamed/part_010, lines 179-202): resolve the referenced path, require
the directive, and push a record unless one with the same `importPath`
already exists. -/
def validateIslandStep (fs : List (String × String)) (srcDir : String)
    (islands : List IslandInfo) (componentPath : String) : List IslandInfo :=
  match resolveComponentPath fs componentPath srcDir with
  | none => islands
  | some resolvedPath =>
      if !(hasIslandDirective fs resolvedPath) then islands
      else if islands.any (fun i => i.importPath == componentPath) then
        islands
      else
        islands ++ [{ name := getComponentName componentPath,
                      filePath := resolvedPath,
                      importPath := componentPath }]

/-- The validation stage of `scanForIslands`: fold the validation loop over
the referenced component paths collected by the traversal. -/
def validateIslandReferences (fs : List (String × String)) (srcDir : String)
    (foundComponentPaths : List String) : List IslandInfo :=
  foundComponentPaths.foldl (validateIslandStep fs srcDir) []

/-- A reference is valid iff it resolves to a file whose first line carries
the directive. -/
def validIslandReference (fs : List (String × String))
    (srcDir componentPath : String) : Bool :=
  match resolveComponentPath fs componentPath srcDir with
  | none => false
  | some resolvedPath => hasIslandDirective fs resolvedPath

/-- A reference is retained in a scan result iff some record carries it as
its `importPath`. -/
def islandRetained (islands : List IslandInfo) (componentPath : String) :
    Bool :=
  islands.any (fun i => i.importPath == componentPath)

theorem islandRetained_append (islands : List IslandInfo)
    (e : IslandInfo) (p : String) :
    islandRetained (islands ++ [e]) p
      = (islandRetained islands p || (e.importPath == p)) := by
  simp [islandRetained]

theorem islandRetained_step (fs : List (String × String)) (srcDir : String)
    (acc : List IslandInfo) (q p : String) :
    islandRetained (validateIslandStep fs srcDir acc q) p
      = (islandRetained acc p
          || ((p == q) && validIslandReference fs srcDir q)) := by
  unfold validateIslandStep validIslandReference
  cases hres : resolveComponentPath fs q srcDir with
  | none => simp
  | some rp =>
      cases hdir : hasIslandDirective fs rp with
      | false => simp [hdir]
      | true =>
          dsimp only
          rw [hdir]
          simp only [Bool.not_true, Bool.false_eq_true, if_false,
            Bool.and_true]
          cases hq : acc.any (fun i => i.importPath == q) with
          | true =>
              rw [if_pos rfl]
              by_cases hpq : p = q
              · subst hpq
                have hacc : islandRetained acc p = true := hq
                simp [hacc]
              · simp [show (p == q) = false by simpa using hpq]
          | false =>
              rw [if_neg (by simp [hq]), islandRetained_append]
              by_cases hpq : p = q
              · subst hpq; simp
              · simp [show (p == q) = false by simpa using hpq,
                  show (q == p) = false by
                    simp only [beq_eq_false_iff_ne, ne_eq]
                    exact fun h => hpq h.symm]

theorem islandRetained_fold (fs : List (String × String)) (srcDir : String)
    (paths : List String) (acc : List IslandInfo) (p : String) :
    islandRetained (paths.foldl (validateIslandStep fs srcDir) acc) p
      = (islandRetained acc p
          || (paths.contains p && validIslandReference fs srcDir p)) := by
  induction paths generalizing acc with
  | nil => simp
  | cons q rest ih =>
      rw [List.foldl_cons, ih, islandRetained_step]
      by_cases hpq : p = q
      · subst hpq
        cases hv : validIslandReference fs srcDir p <;>
          cases hA : islandRetained acc p <;>
            simp [hv, hA, List.contains_cons]
      · simp [show (p == q) = false by simpa using hpq, hpq,
          List.contains_cons, Bool.or_assoc]

/-- **C2** (amended).  A referenced island path is retained by the
validation stage of `scanForIslands` iff it was referenced and it resolves
to an existing file whose *first line*, trimmed, matches the directive regex
(an opening single or double quote, `use island`, a closing single or double
quote, optional semicolon).  A reference that fails resolution or this test
is absent from the returned island list — the scan never aborts (the fold is
total).  The correction relative to the claim: the code tests the literal
first line of the file (`content.split("\n")[0]`), not the first non-empty
line, so a directive preceded by a blank line is rejected. -/
theorem C2_theorem_island_validation (fs : List (String × String))
    (srcDir : String) (paths : List String) (p : String) :
    islandRetained (validateIslandReferences fs srcDir paths) p
      = (paths.contains p && validIslandReference fs srcDir p) := by
  unfold validateIslandReferences
  rw [islandRetained_fold]
  simp [islandRetained]

/-- The directive marker as the claim words it: `use island` in single or
double quotes, optionally semicolon-terminated. -/
def specDirectiveLiteral (s : String) : Bool :=
  s == "\x27use island\x27" || s == "\x22use island\x22" ||
  s == "\x27use island\x27;" || s == "\x22use island\x22;"

/-- The claim's validation condition: the *first non-empty line* of the file
equals the directive marker exactly. -/
def firstNonEmptyLineIsDirective (content : String) : Bool :=
  match (jsSplitChar content '\n').find? (fun l => !(jsTrim l == "")) with
  | some l => specDirectiveLiteral l
  | none => false

/-- **C2** — counterexample.  The claim retains a reference iff it resolves
to a file whose *first non-empty* line equals the directive marker.  Take a
file whose first line is empty and whose second line is exactly
`'use island'`: it resolves, its first non-empty line is the directive
marker, yet `hasIslandDirective` tests only `content.split("\n")[0]` — the
empty first line — so the scan drops the reference and returns no island. -/
theorem C2_counterexample :
    resolveComponentPath
        [("/proj/src/components/Widget.tsx",
          "\n\x27use island\x27\nexport default 1")]
        "components/Widget" "/proj/src"
      = some "/proj/src/components/Widget.tsx"
    ∧ firstNonEmptyLineIsDirective
        "\n\x27use island\x27\nexport default 1" = true
    ∧ validateIslandReferences
        [("/proj/src/components/Widget.tsx",
          "\n\x27use island\x27\nexport default 1")]
        "/proj/src" ["components/Widget"]
      = [] :=
  ⟨rfl, rfl, rfl⟩

/-! ## Resolved configuration (typed view)

The downstream stages receive a `ResolvedSsgConfig` (types.ts); this is the
typed counterpart of the `DEFAULT_CONFIG` object above.  The `vite.plugins`
array carries opaque external plugin values and is not represented. -/

structure TerserOptions where
  dropConsole : Bool
  dropDebugger : Bool
  passes : Nat

structure JsConfig where
  minify : String
  target : String
  terserOptions : TerserOptions

structure CssConfig where
  minify : String
  globalCssPath : String

structure ImagesConfig where
  enabled : Bool
  formats : List String
  quality : Nat
  generateSrcset : Bool
  srcsetMultipliers : List Nat
  lcpImageCount : Nat

structure HtmlConfig where
  headTags : String
  bodyTags : String
  lang : String

structure ResolvedSsgConfig where
  outDir : String
  baseUrl : String
  srcDir : String
  images : ImagesConfig
  css : CssConfig
  js : JsConfig
  html : HtmlConfig
  logLevel : String

/-- The typed view of `DEFAULT_CONFIG`. -/
def defaultResolvedConfig : ResolvedSsgConfig :=
  { outDir := "dist/static", baseUrl := "/static", srcDir := "src",
    images := { enabled := true, formats := ["webp"], quality := 80,
                generateSrcset := true, srcsetMultipliers := [1, 2],
                lcpImageCount := 4 },
    css := { minify := "lightningcss", globalCssPath := "src/index.css" },
    js := { minify := "terser", target := "es2020",
            terserOptions := { dropConsole := true, dropDebugger := true,
                               passes := 2 } },
    html := { headTags := "", bodyTags := "", lang := "en" },
    logLevel := "info" }

/-! ## HTML template generator
(src/unnamed/part_011, `generateHtmlTemplate`, lines 108-182) -/

/-- One hexadecimal digit (lower case), for JSON escapes. -/
def hexDigit (n : Nat) : Char :=
  if n < 10 then Char.ofNat (48 + n) else Char.ofNat (87 + n)

/-- The escape of one character under `JSON.stringify`. -/
def jsonEscapeChar (c : Char) : List Char :=
  if c == '"' then ['\\', '"']
  else if c == '\\' then ['\\', '\\']
  else if c == '\n' then ['\\', 'n']
  else if c == '\r' then ['\\', 'r']
  else if c == '\t' then ['\\', 't']
  else if c.toNat == 8 then ['\\', 'b']
  else if c.toNat == 12 then ['\\', 'f']
  else if c.toNat < 32 then
    ['\\', 'u', '0', '0', hexDigit (c.toNat / 16), hexDigit (c.toNat % 16)]
  else [c]

/-- `JSON.stringify` of a string value. -/
def jsonStringify (s : String) : String :=
  String.mk ('"' :: (s.data.foldr (fun c acc => jsonEscapeChar c ++ acc)
    ['"']))

/-- The inline hydration loader of the HTML template (the module-private
`generateHydrationScript` of src/unnamed/part_011, lines 148-181): an inline
`__SSR_ROUTE__` global followed by an inline script that injects the real
hydration bundle on first interaction, island visibility, or an
idle/timeout fallback. -/
def generateHydrationLoaderScript (hydrateJsPath routeUrl : String) :
    String :=
  "<!-- SSR route for hydration consistency -->\n    <script>window.__SSR_ROUTE__ = "
  ++ jsonStringify routeUrl
  ++ ";</script>\n    <!-- Lazy-load hydration script when user interacts or island is visible -->\n    <script>\n    (function() \x7b\n      var loaded = false;\n      function loadHydration() \x7b\n        if (loaded) return;\n        loaded = true;\n        var s = document.createElement(\x27script\x27);\n        s.type = \x27module\x27;\n        s.src = "
  ++ jsonStringify hydrateJsPath
  ++ ";\n        document.body.appendChild(s);\n      \x7d\n      // Load on any user interaction\n      [\x27click\x27, \x27touchstart\x27, \x27mouseover\x27, \x27scroll\x27].forEach(function(e) \x7b\n        document.addEventListener(e, loadHydration, \x7b once: true, passive: true \x7d);\n      \x7d);\n      // Also load when islands become visible (IntersectionObserver)\n      if (\x27IntersectionObserver\x27 in window) \x7b\n        var observer = new IntersectionObserver(function(entries) \x7b\n          entries.forEach(function(entry) \x7b\n            if (entry.isIntersecting) \x7b loadHydration(); observer.disconnect(); \x7d\n          \x7d);\n        \x7d, \x7b rootMargin: \x27200px\x27 \x7d);\n        document.querySelectorAll(\x27[data-island]\x27).forEach(function(el) \x7b observer.observe(el); \x7d);\n      \x7d else \x7b\n        // Fallback: load after idle\n        if (\x27requestIdleCallback\x27 in window) \x7b requestIdleCallback(loadHydration); \x7d\n        else \x7b setTimeout(loadHydration, 2000); \x7d\n      \x7d\n    \x7d)();\n    </script>"

/-- The hydration slot of the template:
`hydrateJsPath ? generateHydrationScript(hydrateJsPath, routeUrl) : ""`. -/
def hydrationSlot (hydrateJsPath : Option String) (routeUrl : String) :
    String :=
  match hydrateJsPath with
  | some p => generateHydrationLoaderScript p routeUrl
  | none => ""

/-- `HtmlTemplateOptions` of src/unnamed/part_011 (lines 88-103);
`imagePreloadTags` defaults to `""` at the destructuring site. -/
structure HtmlTemplateOptions where
  headContent : String
  bodyContent : String
  cssPath : Option String
  hydrateJsPath : Option String
  routeUrl : String
  imagePreloadTags : String
  config : ResolvedSsgConfig

/-- `generateHtmlTemplate` (src/unnamed/part_011, lines 108-143): the full
document template literal. -/
def generateHtmlTemplate (options : HtmlTemplateOptions) : String :=
  "<!DOCTYPE html>\n<html lang=\""
  ++ options.config.html.lang
  ++ "\">\n<head>\n    <meta charset=\"UTF-8\">\n    <meta name=\"viewport\" content=\"width=device-width, initial-scale=1.0\">\n\n    <!-- Preload critical images (LCP) -->\n    "
  ++ options.imagePreloadTags
  ++ "\n\n    <!-- CSS (render-blocking to prevent layout shift) -->\n    "
  ++ (match options.cssPath with
      | some p => "<link rel=\"stylesheet\" href=\"" ++ p ++ "\">"
      | none => "")
  ++ "\n\n    <!-- Page-defined head content -->\n    "
  ++ options.headContent
  ++ "\n\n    <!-- Additional head tags from config -->\n    "
  ++ options.config.html.headTags
  ++ "\n</head>\n<body>\n    <div id=\"root\">"
  ++ options.bodyContent
  ++ "</div>\n    "
  ++ hydrationSlot options.hydrateJsPath options.routeUrl
  ++ "\n    "
  ++ options.config.html.bodyTags
  ++ "\n</body>\n</html>"

/-! ## Hydration builder
(src/node_modules/vite-plugin-ssg/src/hydration-builder.ts) -/

/-- Result of `buildHydrationBundle`: the public URL of the bundle (or
`null`) and the artifact names the build leaves in the output directory. -/
structure HydrationBuildResult where
  hydratePath : Option String
  artifacts : List String

/-- `buildHydrationBundle` (hydration-builder.ts, lines 41-118): with zero
islands it returns `{hydratePath: null}` before writing the temp entry or
invoking the bundler; otherwise the bundler emits `{slug}-hydrate.js` into
the output directory (the temporary entry file is removed in the `finally`
block) and the public URL `{baseUrl}/{slug}-hydrate.js` is returned. -/
def buildHydrationBundle (slug : String) (islands : List IslandInfo)
    (config : ResolvedSsgConfig) : HydrationBuildResult :=
  if islands.isEmpty then
    { hydratePath := none, artifacts := [] }
  else
    { hydratePath := some (config.baseUrl ++ "/" ++ slug ++ "-hydrate.js"),
      artifacts := [slug ++ "-hydrate.js"] }

set_option maxRecDepth 4000 in
/-- **C5** (confirmed).  With an empty validated island list,
`buildHydrationBundle` returns a null hydration path and leaves no artifact;
and an HTML document generated with a null `hydrateJsPath` carries no
hydration bootstrap markup: the hydration slot renders as the empty string,
the output is independent of the route URL (so no `__SSR_ROUTE__` global can
encode it), and on a representative page neither the `__SSR_ROUTE__` global
nor the `loadHydration` loader appears anywhere in the document. -/
theorem C5_theorem_zero_islands_no_bootstrap :
    (∀ (slug : String) (config : ResolvedSsgConfig),
      buildHydrationBundle slug [] config
        = { hydratePath := none, artifacts := [] })
    ∧ (∀ routeUrl : String, hydrationSlot none routeUrl = "")
    ∧ (∀ (head body : String) (css : Option String)
        (preload : String) (cfg : ResolvedSsgConfig) (r1 r2 : String),
        generateHtmlTemplate
          { headContent := head, bodyContent := body, cssPath := css,
            hydrateJsPath := none, routeUrl := r1,
            imagePreloadTags := preload, config := cfg }
          = generateHtmlTemplate
          { headContent := head, bodyContent := body, cssPath := css,
            hydrateJsPath := none, routeUrl := r2,
            imagePreloadTags := preload, config := cfg })
    ∧ hasSubstr (generateHtmlTemplate
        { headContent := "<title>Home</title>",
          bodyContent := "<div>welcome</div>",
          cssPath := some "/static/home.css",
          hydrateJsPath := none, routeUrl := "/",
          imagePreloadTags := "", config := defaultResolvedConfig })
        "__SSR_ROUTE__" = false
    ∧ hasSubstr (generateHtmlTemplate
        { headContent := "<title>Home</title>",
          bodyContent := "<div>welcome</div>",
          cssPath := some "/static/home.css",
          hydrateJsPath := none, routeUrl := "/",
          imagePreloadTags := "", config := defaultResolvedConfig })
        "loadHydration" = false :=
  ⟨fun _ _ => rfl, fun _ => rfl, fun _ _ _ _ _ _ _ => rfl, rfl, rfl⟩

/-! ## Page discovery
(src/unnamed/part_006): static text extraction of the `ssgOptions` export
and file/directory discovery.  The regexes of
`extractSsgOptionsFromFile` are implemented as deterministic scanners over
the character list; `\s` is modelled by `Char.isWhitespace` and `\w` by
alphanumeric-or-underscore. -/

/-- Consume an exact literal prefix. -/
def dropLit : List Char → List Char → Option (List Char)
  | [], cs => some cs
  | _ :: _, [] => none
  | l :: ls, c :: cs => if c == l then dropLit ls cs else none

/-- `\s*`. -/
def ws0 (cs : List Char) : List Char :=
  cs.dropWhile Char.isWhitespace

/-- `\s+`. -/
def ws1 : List Char → Option (List Char)
  | [] => none
  | c :: rest =>
      if c.isWhitespace then some (rest.dropWhile Char.isWhitespace)
      else none

/-- `\w`. -/
def isWordChar (c : Char) : Bool :=
  c.isAlphanum || c == '_'

/-- Opening curly brace. -/
def lbrace : Char := Char.ofNat 123

/-- Closing curly brace. -/
def rbrace : Char := Char.ofNat 125

/-- Quote characters of the option-value regexes. -/
def isQuoteChar (c : Char) : Bool :=
  c == '"' || c == Char.ofNat 39 || c == Char.ofNat 96

/-- Head of the `ssgOptions`-export regex
(`export\s+const\s+ssgOptions\s*(?::\s*\w+)?\s*=\s*\x7b`): on success,
return the text after the opening brace. -/
def matchSsgHeader (cs : List Char) : Option (List Char) := do
  let cs ← dropLit "export".data cs
  let cs ← ws1 cs
  let cs ← dropLit "const".data cs
  let cs ← ws1 cs
  let cs ← dropLit "ssgOptions".data cs
  let cs := ws0 cs
  let cs ← (match cs with
    | ':' :: rest =>
        let rest2 := ws0 rest
        if (rest2.takeWhile isWordChar).isEmpty then none
        else some (ws0 (rest2.dropWhile isWordChar))
    | _ => some cs)
  match cs with
  | '=' :: rest =>
      (match ws0 rest with
       | c :: rest2 => if c == lbrace then some rest2 else none
       | [] => none)
  | _ => none

/-- The lazy capture `([\s\S]*?)\n\x7d;`: everything up to the first
newline-brace-semicolon, or `none` when it never occurs. -/
def captureUntilClose : List Char → Option (List Char)
  | [] => none
  | c :: rest =>
      if c == '\n' then
        match rest with
        | c1 :: c2 :: _ =>
            if c1 == rbrace && c2 == ';' then some []
            else (captureUntilClose rest).map (fun l => c :: l)
        | _ => (captureUntilClose rest).map (fun l => c :: l)
      else (captureUntilClose rest).map (fun l => c :: l)

/-- Leftmost match of the `ssgOptions` block regex; returns the captured
options body. -/
def findSsgBlock : List Char → Option (List Char)
  | [] => none
  | c :: rest =>
      match matchSsgHeader (c :: rest) with
      | some after => captureUntilClose after
      | none => findSsgBlock rest

/-- `key\s*:\s*["\x27\x60]([^"\x27\x60]+)["\x27\x60]` anchored at the start
of `cs`: the captured quoted value. -/
def matchKeyQuotedAt (key : List Char) (cs : List Char) : Option String := do
  let cs ← dropLit key cs
  match ws0 cs with
  | ':' :: rest =>
      (match ws0 rest with
       | q :: rest2 =>
           if isQuoteChar q then
             let v := rest2.takeWhile (fun c => !(isQuoteChar c))
             if v.isEmpty then none
             else
               match rest2.dropWhile (fun c => !(isQuoteChar c)) with
               | _ :: _ => some (String.mk v)
               | [] => none
           else none
       | [] => none)
  | _ => none

/-- Leftmost match of the quoted-value regex for `key`. -/
def findKeyQuoted (key : List Char) : List Char → Option String
  | [] => none
  | c :: rest =>
      match matchKeyQuotedAt key (c :: rest) with
      | some v => some v
      | none => findKeyQuoted key rest

/-- `Head\s*:\s*(?:\(\)|[^,\x7d])` anchored at the start: after `Head`,
optional whitespace and a colon, the regex accepts as soon as at least one
following character is neither a comma nor a closing brace (whitespace
itself qualifies, by backtracking of the inner `\s*`). -/
def matchHeadColonAt (cs : List Char) : Bool :=
  match dropLit "Head".data cs with
  | none => false
  | some cs2 =>
      match ws0 cs2 with
      | ':' :: rest =>
          (match rest with
           | c :: _ => !(c == ',') && !(c == rbrace)
           | [] => false)
      | _ => false

/-- Scan for `matchHeadColonAt` anywhere. -/
def testHeadColon : List Char → Bool
  | [] => false
  | c :: rest => matchHeadColonAt (c :: rest) || testHeadColon rest

/-- `Head\s*\(\s*\)` anchored at the start. -/
def matchHeadParenAt (cs : List Char) : Bool :=
  match dropLit "Head".data cs with
  | none => false
  | some cs2 =>
      match ws0 cs2 with
      | '(' :: rest =>
          (match ws0 rest with
           | ')' :: _ => true
           | _ => false)
      | _ => false

/-- Scan for `matchHeadParenAt` anywhere. -/
def testHeadParen : List Char → Bool
  | [] => false
  | c :: rest => matchHeadParenAt (c :: rest) || testHeadParen rest

/-- `context\s*:\s*(?:async\s*)?\(` anchored at the start: after the colon,
either the next non-whitespace character is an opening parenthesis, or the
literal `async` follows and the next non-whitespace character after it is an
opening parenthesis. -/
def matchContextParenAt (cs : List Char) : Bool :=
  match dropLit "context".data cs with
  | none => false
  | some cs2 =>
      match ws0 cs2 with
      | ':' :: rest =>
          (match ws0 rest with
           | '(' :: _ => true
           | cs3 =>
               match dropLit "async".data cs3 with
               | some cs4 =>
                   (match ws0 cs4 with
                    | '(' :: _ => true
                    | _ => false)
               | none => false)
      | _ => false

/-- Scan for `matchContextParenAt` anywhere. -/
def testContextParen : List Char → Bool
  | [] => false
  | c :: rest => matchContextParenAt (c :: rest) || testContextParen rest

/-- `context\s*:\s*\w+` anchored at the start. -/
def matchContextWordAt (cs : List Char) : Bool :=
  match dropLit "context".data cs with
  | none => false
  | some cs2 =>
      match ws0 cs2 with
      | ':' :: rest =>
          (match ws0 rest with
           | c :: _ => isWordChar c
           | [] => false)
      | _ => false

/-- Scan for `matchContextWordAt` anywhere. -/
def testContextWord : List Char → Bool
  | [] => false
  | c :: rest => matchContextWordAt (c :: rest) || testContextWord rest

/-- `ParsedSsgOptions` of src/unnamed/part_006. -/
structure ParsedSsgOptions where
  slug : String
  routeUrl : String
  hasHead : Bool
  hasContext : Bool

/-- `extractSsgOptionsFromFile` (src/unnamed/part_006, lines 42-89), over
the file content: find the exported `ssgOptions` block, require a
quoted `slug`, default `routeUrl` to `/`, and detect head/context fields
heuristically.  Returns `none` exactly when the block or the slug is
missing (a read failure also yields `none` in the source; the model receives
contents directly). -/
def extractSsgOptionsFromFile (content : String) : Option ParsedSsgOptions :=
  match findSsgBlock content.data with
  | none => none
  | some optionsContent =>
      match findKeyQuoted "slug".data optionsContent with
      | none => none
      | some slug =>
          some { slug := slug,
                 routeUrl :=
                   (findKeyQuoted "routeUrl".data optionsContent).getD "/",
                 hasHead := testHeadColon optionsContent
                   || testHeadParen optionsContent,
                 hasContext := testContextParen optionsContent
                   || testContextWord optionsContent }

/-- `ResolvedPageConfig` of src/unnamed/part_006. -/
structure ResolvedPageConfig where
  componentPath : String
  slug : String
  routeUrl : String
  hasHead : Bool
  hasContext : Bool

/-- The discovery input: a single file with its content, or a directory
with its immediate entries (name and content of each regular file). -/
inductive DiscoveryInput where
  | file (path content : String)
  | dir (path : String) (entries : List (String × String))

/-- Build a page record from a component path and parsed options. -/
def pageOf (componentPath : String) (o : ParsedSsgOptions) :
    ResolvedPageConfig :=
  { componentPath := componentPath, slug := o.slug, routeUrl := o.routeUrl,
    hasHead := o.hasHead, hasContext := o.hasContext }

/-- `discoverPages` (src/unnamed/part_006, lines 99-163).  Single-file mode
throws when the file has no extractable `ssgOptions`; directory mode scans
the `.tsx`/`.jsx` entries, keeps the conforming ones and skips the rest with
a warning. -/
def discoverPages : DiscoveryInput → Except String (List ResolvedPageConfig)
  | DiscoveryInput.file path content =>
      (match extractSsgOptionsFromFile content with
       | none => Except.error ("File " ++ path
           ++ " does not export \x27ssgOptions\x27. Single file input requires ssgOptions export.")
       | some o => Except.ok [pageOf path o])
  | DiscoveryInput.dir path entries =>
      Except.ok
        ((entries.filter
            (fun e => jsEndsWith e.1 ".tsx" || jsEndsWith e.1 ".jsx")).foldl
          (fun pages e =>
            match extractSsgOptionsFromFile e.2 with
            | some o => pages ++ [pageOf (pathJoin path e.1) o]
            | none => pages) [])

/-- The discovery part of `generateStaticWithInfo` (gen-static.ts, lines
181-188): discover pages, then fail with `No pages found to generate` when
the list is empty. -/
def generateStaticDiscovery (input : DiscoveryInput) :
    Except String (List ResolvedPageConfig) :=
  match discoverPages input with
  | Except.error e => Except.error e
  | Except.ok pages =>
      if pages.length == 0 then Except.error "No pages found to generate"
      else Except.ok pages

theorem discover_dir_fold_aux (path : String)
    (entries : List (String × String)) (acc : List ResolvedPageConfig) :
    entries.foldl
      (fun pages e =>
        match extractSsgOptionsFromFile e.2 with
        | some o => pages ++ [pageOf (pathJoin path e.1) o]
        | none => pages) acc
      = acc ++ entries.filterMap
          (fun e => (extractSsgOptionsFromFile e.2).map
            (fun o => pageOf (pathJoin path e.1) o)) := by
  induction entries generalizing acc with
  | nil => simp
  | cons e rest ih =>
      rw [List.foldl_cons, ih]
      cases h : extractSsgOptionsFromFile e.2 with
      | none => simp [List.filterMap_cons, h]
      | some o => simp [List.filterMap_cons, h]

/-- **C6** (confirmed).  (1) Single-file discovery fails iff the file text
has no extractable page-options block — an exported `ssgOptions` constant
with a quoted `slug` field, as computed by `extractSsgOptionsFromFile`.
(2) Directory discovery never fails: it returns exactly one `ResolvedPageConfig`
per conforming `.tsx`/`.jsx` entry (in directory order) and skips the rest.
(3) An orchestrator run succeeds iff discovery succeeds with at least one
page; zero pages across the whole input is a fatal error. -/
theorem C6_theorem_discovery_errors :
    (∀ path content : String,
      (discoverPages (DiscoveryInput.file path content)).isOk
        = (extractSsgOptionsFromFile content).isSome)
    ∧ (∀ (path : String) (entries : List (String × String)),
      discoverPages (DiscoveryInput.dir path entries)
        = Except.ok
            ((entries.filter
                (fun e => jsEndsWith e.1 ".tsx" || jsEndsWith e.1 ".jsx")
              ).filterMap
              (fun e => (extractSsgOptionsFromFile e.2).map
                (fun o => pageOf (pathJoin path e.1) o))))
    ∧ (∀ input : DiscoveryInput,
      (generateStaticDiscovery input).isOk = true
        ↔ ∃ pages, discoverPages input = Except.ok pages ∧ pages ≠ []) := by
  refine ⟨?_, ?_, ?_⟩
  · intro path content
    simp only [discoverPages]
    cases extractSsgOptionsFromFile content <;> rfl
  · intro path entries
    simp only [discoverPages]
    rw [discover_dir_fold_aux]
    simp
  · intro input
    unfold generateStaticDiscovery
    cases hd : discoverPages input with
    | error e =>
        simp [Except.isOk, Except.toBool]
    | ok pages =>
        cases pages with
        | nil => simp [Except.isOk, Except.toBool]
        | cons p rest =>
            simp [Except.isOk, Except.toBool]

/-- Grounding example: the extractor on a realistic page module text. -/
theorem extractSsgOptions_example :
    (extractSsgOptionsFromFile
      "import React from \x27react\x27\nexport const ssgOptions: SsgOptions = \x7b\n    slug: \x27home\x27,\n    routeUrl: \x27/about\x27,\n\x7d;\nexport default 5").map
      (fun o => (o.slug, o.routeUrl, o.hasHead, o.hasContext))
      = some ("home", "/about", false, false) := rfl

/-! ## Island naming: hydration registry vs. SSR context
(src/unnamed/part_010 `generateHydrationScript`,
src/node_modules/vite-plugin-ssg/src/Island.tsx, and the `render` loop of
src/unnamed/part_005) -/

/-- The `data-island` attribute value the `Island` wrapper emits at render
time (Island.tsx, line 43): `component.split("/").pop() || component`. -/
def islandDataIslandAttr (component : String) : String :=
  let last := (jsSplitChar component '/').getLastD ""
  if last == "" then component else last

/-- Upsert into a string-keyed association list (JavaScript object
assignment: later bindings for a key win). -/
def setAssoc : List (String × String) → String → String →
    List (String × String)
  | [], k, v => [(k, v)]
  | p :: rest, k, v =>
      if p.1 == k then (k, v) :: rest else p :: setAssoc rest k v

/-- First binding for a key. -/
def lookupAssoc (m : List (String × String)) (k : String) : Option String :=
  (m.find? (fun p => p.1 == k)).map (fun p => p.2)

/-- The component registry of the generated hydration script
(`generateHydrationScript`, src/unnamed/part_010, lines 218-244): the script
emits `import <name> from "<filePath>"` per island and the object literal
`const islandComponents = { <name>, ... }`, i.e. a record keyed by the
island *name* whose value is the module loaded from the island's file. -/
def hydrationRegistry (islands : List IslandInfo) : List (String × String) :=
  islands.foldl (fun acc i => setAssoc acc i.name i.filePath) []

/-- The lookup the generated script performs per DOM node
(`islandComponents[name]` with `name = island.getAttribute("data-island")`,
lines 269-274). -/
def hydrateLookup (islands : List IslandInfo) (attr : String) :
    Option String :=
  lookupAssoc (hydrationRegistry islands) attr

/-- The SSR-side island context of `render` (src/unnamed/part_005, lines
36-46): `islandComponents[island.importPath] = module` for each island whose
dynamic import succeeds (`loadOk`); a failed import is logged and
skipped. -/
def ssrIslandRegistry (loadOk : String → Bool)
    (islands : List IslandInfo) : List (String × String) :=
  islands.foldl
    (fun acc i =>
      if loadOk i.filePath then setAssoc acc i.importPath i.filePath
      else acc) []

/-- Pairwise distinct island names (final import-path segments). -/
def distinctNames : List IslandInfo → Bool
  | [] => true
  | i :: rest => !(rest.any (fun j => j.name == i.name)) && distinctNames rest

theorem lookupAssoc_cons (p : String × String) (m : List (String × String))
    (x : String) :
    lookupAssoc (p :: m) x
      = if p.1 = x then some p.2 else lookupAssoc m x := by
  by_cases h : p.1 = x
  · simp [lookupAssoc, List.find?_cons, h]
  · simp [lookupAssoc, List.find?_cons, h]

theorem lookupAssoc_setAssoc (m : List (String × String)) (k x v : String) :
    lookupAssoc (setAssoc m k v) x
      = if x = k then some v else lookupAssoc m x := by
  induction m with
  | nil =>
      show lookupAssoc [(k, v)] x = if x = k then some v else lookupAssoc [] x
      rw [lookupAssoc_cons]
      by_cases h : x = k
      · simp [h]
      · rw [if_neg (fun hh => h hh.symm), if_neg h]
  | cons p rest ih =>
      simp only [setAssoc]
      by_cases hpk : p.1 = k
      · rw [if_pos (by simpa using hpk), lookupAssoc_cons, lookupAssoc_cons]
        by_cases hxk : x = k
        · simp [hxk]
        · rw [if_neg (fun hh : k = x => hxk hh.symm),
            if_neg (fun hh : p.1 = x => hxk (hpk.symm.trans hh).symm),
            if_neg hxk]
      · rw [if_neg (by simpa using hpk), lookupAssoc_cons, lookupAssoc_cons]
        by_cases hpx : p.1 = x
        · rw [if_pos hpx, if_pos hpx,
            if_neg (fun hh : x = k => hpk (hpx.trans hh))]
        · rw [if_neg hpx, if_neg hpx, ih]

theorem hydrationRegistry_foldl_untouched (rest : List IslandInfo)
    (acc : List (String × String)) (k : String)
    (h : rest.all (fun x => !(x.name == k)) = true) :
    lookupAssoc
      (rest.foldl (fun acc i => setAssoc acc i.name i.filePath) acc) k
      = lookupAssoc acc k := by
  induction rest generalizing acc with
  | nil => rfl
  | cons j tail ih =>
      have h1 : (j.name == k) = false := by
        have := (List.all_eq_true.mp h) j (by simp)
        simpa using this
      have h2 : tail.all (fun x => !(x.name == k)) = true := by
        refine List.all_eq_true.mpr ?_
        intro x hx
        exact (List.all_eq_true.mp h) x (by simp [hx])
      rw [List.foldl_cons, ih _ h2, lookupAssoc_setAssoc,
        if_neg (fun hh : k = j.name => by simp [hh] at h1)]

theorem hydrationRegistry_lookup_aux (islands : List IslandInfo)
    (acc : List (String × String)) (i : IslandInfo)
    (hmem : i ∈ islands) (hdist : distinctNames islands = true) :
    lookupAssoc
      (islands.foldl (fun acc i => setAssoc acc i.name i.filePath) acc)
      i.name = some i.filePath := by
  induction islands generalizing acc with
  | nil => cases hmem
  | cons j rest ih =>
      simp only [distinctNames, Bool.and_eq_true, Bool.not_eq_true'] at hdist
      rcases List.mem_cons.mp hmem with hij | hirest
      · subst hij
        have hall : rest.all (fun x => !(x.name == i.name)) = true := by
          refine List.all_eq_true.mpr ?_
          intro x hx
          cases hbe : (x.name == i.name) with
          | false => simp [hbe]
          | true =>
              exact absurd (List.any_eq_true.mpr ⟨x, hx, hbe⟩)
                (by rw [hdist.1]; exact Bool.false_ne_true)
        rw [List.foldl_cons,
          hydrationRegistry_foldl_untouched rest _ i.name hall,
          lookupAssoc_setAssoc, if_pos rfl]
      · rw [List.foldl_cons]
        exact ih _ hirest hdist.2

theorem ssrRegistry_keys_aux (loadOk : String → Bool)
    (islands : List IslandInfo) (acc : List (String × String)) (k : String)
    (h : (lookupAssoc
      (islands.foldl
        (fun acc i =>
          if loadOk i.filePath then setAssoc acc i.importPath i.filePath
          else acc) acc) k).isSome = true) :
    (lookupAssoc acc k).isSome = true
      ∨ k ∈ islands.map (fun i => i.importPath) := by
  induction islands generalizing acc with
  | nil => exact Or.inl h
  | cons j rest ih =>
      rw [List.foldl_cons] at h
      rcases ih _ h with hacc | hrest
      · by_cases hl : loadOk j.filePath
        · rw [if_pos hl, lookupAssoc_setAssoc] at hacc
          by_cases hkj : k = j.importPath
          · exact Or.inr (by simp [hkj])
          · rw [if_neg hkj] at hacc
            exact Or.inl hacc
        · rw [if_neg hl] at hacc
          exact Or.inl hacc
      · exact Or.inr (by simp [List.mem_cons]; right; simpa using hrest)

theorem validateIslandStep_mem (fs : List (String × String))
    (srcDir : String) (acc : List IslandInfo) (q : String) (i : IslandInfo)
    (h : i ∈ validateIslandStep fs srcDir acc q) :
    i ∈ acc ∨ (i.name = getComponentName q ∧ i.importPath = q) := by
  unfold validateIslandStep at h
  cases hres : resolveComponentPath fs q srcDir with
  | none => rw [hres] at h; exact Or.inl h
  | some rp =>
      rw [hres] at h
      dsimp only at h
      by_cases hdir : hasIslandDirective fs rp
      · rw [if_neg (by simp [hdir])] at h
        by_cases hdup : acc.any (fun i => i.importPath == q) = true
        · rw [if_pos hdup] at h; exact Or.inl h
        · rw [if_neg hdup] at h
          rcases List.mem_append.mp h with hmem | hnew
          · exact Or.inl hmem
          · simp only [List.mem_singleton] at hnew
            subst hnew
            exact Or.inr ⟨rfl, rfl⟩
      · rw [if_pos (by simp [Bool.not_eq_true] at hdir ⊢; exact hdir)] at h
        exact Or.inl h

theorem validated_name_aux (fs : List (String × String)) (srcDir : String)
    (paths : List String) (acc : List IslandInfo)
    (hacc : ∀ j ∈ acc, j.name = getComponentName j.importPath)
    (i : IslandInfo)
    (hmem : i ∈ paths.foldl (validateIslandStep fs srcDir) acc) :
    i.name = getComponentName i.importPath := by
  induction paths generalizing acc with
  | nil => exact hacc i hmem
  | cons q rest ih =>
      rw [List.foldl_cons] at hmem
      refine ih _ ?_ hmem
      intro j hj
      rcases validateIslandStep_mem fs srcDir acc q j hj with hold | hnew
      · exact hacc j hold
      · rw [hnew.1, hnew.2]

/-- **C10** (confirmed).  (1) The `data-island` attribute the `Island`
wrapper emits equals the scanner's `getComponentName` — the final segment of
the import path.  (2) Every island the scanner validates is registered under
exactly that value: its `name` equals the attribute computed from its
`importPath`.  (3) Under the precondition that the islands of a page have
pairwise-distinct names (final path segments), the generated hydration
script's registry lookup by `data-island` attribute resolves every island to
its own module file.  (4) The SSR-side context of `render` is instead keyed
by the full import path: every key of that registry is the `importPath` of
some island. -/
theorem C10_theorem_island_registry_naming :
    (∀ s : String, islandDataIslandAttr s = getComponentName s)
    ∧ (∀ (fs : List (String × String)) (srcDir : String)
        (paths : List String) (i : IslandInfo),
        i ∈ validateIslandReferences fs srcDir paths →
        i.name = islandDataIslandAttr i.importPath)
    ∧ (∀ (islands : List IslandInfo) (i : IslandInfo),
        distinctNames islands = true → i ∈ islands →
        hydrateLookup islands i.name = some i.filePath)
    ∧ (∀ (loadOk : String → Bool) (islands : List IslandInfo) (k : String),
        (lookupAssoc (ssrIslandRegistry loadOk islands) k).isSome = true →
        k ∈ islands.map (fun i => i.importPath)) := by
  refine ⟨fun _ => rfl, ?_, ?_, ?_⟩
  · intro fs srcDir paths i hmem
    exact validated_name_aux fs srcDir paths [] (by intro j hj; cases hj)
      i hmem
  · intro islands i hdist hmem
    exact hydrationRegistry_lookup_aux islands [] i hmem hdist
  · intro loadOk islands k h
    rcases ssrRegistry_keys_aux loadOk islands [] k h with habs | hm
    · simp [lookupAssoc, List.find?] at habs
    · exact hm

/-- **C10** — witness: with two validated islands of distinct names, the
hydration lookup by the rendered `data-island` attribute resolves each to
its own file. -/
theorem C10_witness :
    hydrateLookup
      [ { name := "Widget", filePath := "/proj/src/components/Widget.tsx",
          importPath := "components/Widget" },
        { name := "Nav", filePath := "/proj/src/ui/Nav.tsx",
          importPath := "ui/Nav" } ] "Widget"
      = some "/proj/src/components/Widget.tsx" :=
  C10_theorem_island_registry_naming.2.2.1
    [ { name := "Widget", filePath := "/proj/src/components/Widget.tsx",
        importPath := "components/Widget" },
      { name := "Nav", filePath := "/proj/src/ui/Nav.tsx",
        importPath := "ui/Nav" } ]
    { name := "Widget", filePath := "/proj/src/components/Widget.tsx",
      importPath := "components/Widget" }
    rfl (List.mem_cons_self _ _)

/-! ## Image optimizer
(src/node_modules/vite-plugin-ssg/src/browser.ts)

The `sharp` transcoder is an external collaborator: it is modelled as an
oracle `transcode : url → targetWidth? → targetHeight? → format → quality →
Option Transcoded` (the download cache is keyed by URL, so keying the oracle
by URL is equivalent to keying it by buffer); `none` models a thrown
transcoding error.  Downloads are an oracle `fetchOk : url → Bool`.  The
`md5` content hash of `node:crypto` is a pure function of its input and is
passed as an oracle `md5hex8` (its first eight hex digits). -/

/-- What `optimizeImage` returns: final dimensions, output format, and the
byte size of the produced buffer. -/
structure Transcoded where
  width : Nat
  height : Nat
  format : String
  size : Nat

/-- One extracted `<img>` occurrence (`ImageInfo`, browser.ts lines 55-62).
A missing `width`/`height` attribute is `none`; the declared values are the
parsed decimal attributes. -/
structure ImgInfo where
  url : String
  width : Option Nat
  height : Option Nat
  isExternal : Bool
  element : String

/-- `OptimizedImage` (browser.ts lines 44-53); `size` is the emitted buffer
length reported by the transcoder. -/
structure OptimizedImage where
  originalUrl : String
  localPath : String
  localUrl : String
  width : Nat
  height : Nat
  format : String
  size : Nat
  srcset : Option String

/-- The options `optimizeImages` consumes (browser.ts lines 25-42), as
filled in by the `generateStaticPage` call site. -/
structure ImgCfg where
  outputDir : String
  baseUrl : String
  formats : List String
  quality : Nat
  generateSrcset : Bool
  srcsetMultipliers : List Nat

/-- The glue in `generateStaticPage` (gen-static.ts, lines 67-77): only
these image options are forwarded to `optimizeImages` — in particular,
`lcpImageCount` is *not* among them (it is used only for
`generateImagePreloads` on line 79). -/
def optimizeImagesCallOptions (config : ResolvedSsgConfig) : ImgCfg :=
  { outputDir := config.outDir,
    baseUrl := config.baseUrl,
    formats := config.images.formats,
    quality := config.images.quality,
    generateSrcset := config.images.generateSrcset,
    srcsetMultipliers := config.images.srcsetMultipliers }

/-- JavaScript truthiness of an optional number (`width ? ... : ...`):
`null`/`undefined` and `0` are falsy. -/
def optTruthy : Option Nat → Bool
  | some w => !(w == 0)
  | none => false

/-- `new URL(url).pathname` for an ordinary absolute http(s) URL: the part
after the authority up to a query or fragment, `/` when absent. -/
def urlPathname (url : String) : String :=
  let rec afterSchemeSep : List Char → Option (List Char)
    | ':' :: '/' :: '/' :: rest => some rest
    | _ :: rest => afterSchemeSep rest
    | [] => none
  match afterSchemeSep url.data with
  | none => "/"
  | some rest =>
      let afterHost := rest.dropWhile
        (fun c => !(c == '/') && !(c == '?') && !(c == '#'))
      match afterHost with
      | '/' :: _ =>
          String.mk (afterHost.takeWhile (fun c => !(c == '?') && !(c == '#')))
      | _ => "/"

/-- The last `/`-separated segment of a path (`path.basename` before
extension stripping). -/
def lastSegment (p : String) : List Char :=
  ((jsSplitChar p '/').getLastD p).data

/-- `path.basename(p, path.extname(p))` on the segment: strip the extension
that `path.extname` would report (empty for no dot or a leading dot). -/
def stripExt (base : List Char) : List Char :=
  let rev := base.reverse
  let afterDot := rev.takeWhile (fun c => !(c == '.'))
  if afterDot.length == rev.length then base
  else if afterDot.length + 1 == rev.length then base
  else (rev.drop (afterDot.length + 1)).reverse

/-- The `[^a-zA-Z0-9-_]` → `_` sanitisation. -/
def sanitizeChar (c : Char) : Char :=
  if c.isAlphanum || c == '-' || c == '_' then c else '_'

/-- `generateFilename` (browser.ts, lines 125-131):
`{sanitizedBase}_{md5(url)[0..8]}{_Nw?}.{format}`; the width suffix is
omitted for a falsy width (absent or zero). -/
def generateFilename (md5hex8 : String → String) (url : String)
    (width : Option Nat) (format : String) : String :=
  let hash := md5hex8 url
  let baseName :=
    String.mk ((stripExt (lastSegment (urlPathname url))).map sanitizeChar)
  let sizeSuffix :=
    match width with
    | some w => if w == 0 then "" else "_" ++ toString w ++ "w"
    | none => ""
  baseName ++ "_" ++ hash ++ sizeSuffix ++ "." ++ format

/-! ### Element rewriting (browser.ts, lines 371-384)

`String.prototype.replace` with the source's regexes, first match only,
implemented as scanners over the character list. -/

/-- Replace the first match (as decided by `try?`, which returns the match
length at the current position) by `repl`. -/
def replaceFirstByAux (try? : List Char → Option Nat) (repl : List Char) :
    List Char → List Char
  | [] => []
  | c :: rest =>
      match try? (c :: rest) with
      | some n => repl ++ ((c :: rest).drop n)
      | none => c :: replaceFirstByAux try? repl rest

/-- String-level wrapper for `replaceFirstByAux`. -/
def replaceFirstBy (s : String) (try? : List Char → Option Nat)
    (repl : String) : String :=
  String.mk (replaceFirstByAux try? repl.data s.data)

/-- Single or double quote. -/
def isSrcQuote (c : Char) : Bool :=
  c == '"' || c == Char.ofNat 39

/-- `src=["\x27][^"\x27]+["\x27]` anchored at the current position; returns
the matched length. -/
def matchSrcAt : List Char → Option Nat
  | 's' :: 'r' :: 'c' :: '=' :: q :: rest =>
      if isSrcQuote q then
        let v := rest.takeWhile (fun c => !(isSrcQuote c))
        if v.isEmpty then none
        else
          match rest.drop v.length with
          | c2 :: _ => if isSrcQuote c2 then some (6 + v.length) else none
          | [] => none
      else none
  | _ => none

/-- `["\x27]?\d+["\x27]?` after a `base`-long prefix: the matched length. -/
def matchNumQuoted (cs : List Char) (base : Nat) : Option Nat :=
  let step1 : Nat × List Char :=
    match cs with
    | c :: t => if isSrcQuote c then (1, t) else (0, cs)
    | [] => (0, cs)
  let ds := step1.2.takeWhile Char.isDigit
  if ds.isEmpty then none
  else
    let cs2 := step1.2.drop ds.length
    let qm : Nat :=
      match cs2 with
      | c :: _ => if isSrcQuote c then 1 else 0
      | [] => 0
    some (base + step1.1 + ds.length + qm)

/-- `width=["\x27]?\d+["\x27]?` anchored at the current position. -/
def matchWidthAt : List Char → Option Nat
  | 'w' :: 'i' :: 'd' :: 't' :: 'h' :: '=' :: rest =>
      matchNumQuoted rest 6
  | _ => none

/-- `height=["\x27]?\d+["\x27]?` anchored at the current position. -/
def matchHeightAt : List Char → Option Nat
  | 'h' :: 'e' :: 'i' :: 'g' :: 'h' :: 't' :: '=' :: rest =>
      matchNumQuoted rest 7
  | _ => none

/-- `<img\s` anchored at the current position (five characters). -/
def matchImgTagAt : List Char → Option Nat
  | '<' :: 'i' :: 'm' :: 'g' :: c :: _ =>
      if c.isWhitespace then some 5 else none
  | _ => none

/-- The replacement `<img loading="lazy" ` of browser.ts line 383. -/
def lazyLoadingRepl : String := "<img loading=\"lazy\" "

/-! ### The per-image processing (browser.ts, lines 296-391) -/

/-- The srcset generation loop (browser.ts, lines 330-357): per multiplier,
transcode at `width * multiplier`, and write the variant *unless its
filename equals the primary filename*.  Returns the filenames written and
`some parts` — the srcset entries — or `none` when a transcode throws
(aborting the whole image inside the outer `try`). -/
def srcsetLoop (md5hex8 : String → String)
    (transcode : String → Option Nat → Option Nat → String → Nat →
      Option Transcoded)
    (baseUrl url : String) (width : Nat) (primaryFormat : String)
    (quality : Nat) (primaryFilename : String) :
    List Nat → List String × Option (List String)
  | [] => ([], some [])
  | m :: rest =>
      let srcsetWidth := width * m
      match transcode url (some srcsetWidth) none primaryFormat quality with
      | none => ([], none)
      | some sopt =>
          let srcsetFilename :=
            generateFilename md5hex8 url (some srcsetWidth) sopt.format
          let srcsetUrl := baseUrl ++ "/images/" ++ srcsetFilename
          let w : List String :=
            if srcsetFilename == primaryFilename then [] else [srcsetFilename]
          let r := srcsetLoop md5hex8 transcode baseUrl url width
            primaryFormat quality primaryFilename rest
          (w ++ r.1,
           r.2.map (fun ps => (srcsetUrl ++ " " ++ toString m ++ "x") :: ps))

/-- The observable outcome of one loop iteration over an extracted image:
skipped (local image / missing download buffer), failed (a transcode threw;
`writes` are the files written before the throw), or processed with the
rewritten element before lazy-marking (`pre`), the lazy decision, the final
element, the filenames written, and the pushed record. -/
inductive ImgOutcome where
  | skippedLocal : ImgOutcome
  | skippedNoBuffer : ImgOutcome
  | failed (writes : List String) : ImgOutcome
  | processed (pre : String) (lazy : Bool) (finalEl : String)
      (writes : List String) (record : OptimizedImage) : ImgOutcome

/-- The body of the `for (const img of images)` loop (browser.ts, lines
296-391) for one image.  `countBefore` is `optimizedImages.length` before
this iteration; the push happens before the lazy check, so the check reads
`countBefore + 1 > 4`. -/
def processOneImage (md5hex8 : String → String)
    (transcode : String → Option Nat → Option Nat → String → Nat →
      Option Transcoded)
    (cfg : ImgCfg) (img : ImgInfo) (downloaded : Bool) (countBefore : Nat) :
    ImgOutcome :=
  if !img.isExternal then ImgOutcome.skippedLocal
  else if !downloaded then ImgOutcome.skippedNoBuffer
  else
    let primaryFormat := cfg.formats.headD "webp"
    match transcode img.url img.width img.height primaryFormat cfg.quality with
    | none => ImgOutcome.failed []
    | some opt =>
        let filename := generateFilename md5hex8 img.url img.width opt.format
        let localPath := pathJoin (pathJoin cfg.outputDir "images") filename
        let localUrl := cfg.baseUrl ++ "/images/" ++ filename
        match (if cfg.generateSrcset && optTruthy img.width then
            srcsetLoop md5hex8 transcode cfg.baseUrl img.url
              (img.width.getD 0) primaryFormat cfg.quality filename
              cfg.srcsetMultipliers
          else ([], some [])) with
        | (sWrites, none) => ImgOutcome.failed (filename :: sWrites)
        | (sWrites, some parts) =>
            let srcset : Option String :=
              if cfg.generateSrcset && optTruthy img.width then
                some (String.intercalate ", " parts)
              else none
            let pre1 := replaceFirstBy img.element matchSrcAt
              ("src=\"" ++ localUrl ++ "\"")
            let pre2 := replaceFirstBy pre1 matchWidthAt
              ("width=\"" ++ toString opt.width ++ "\"")
            let pre3 := replaceFirstBy pre2 matchHeightAt
              ("height=\"" ++ toString opt.height ++ "\"")
            let pre4 :=
              match srcset with
              | some ss =>
                  if !(ss == "") && !(hasSubstr pre3 "srcset=") then
                    replaceFirstBy pre3 matchImgTagAt
                      ("<img srcset=\"" ++ ss ++ "\" ")
                  else pre3
              | none => pre3
            let lazy := !(hasSubstr pre4 "loading=")
              && decide (countBefore + 1 > 4)
            let finalEl :=
              if lazy then replaceFirstBy pre4 matchImgTagAt lazyLoadingRepl
              else pre4
            ImgOutcome.processed pre4 lazy finalEl (filename :: sWrites)
              { originalUrl := img.url, localPath := localPath,
                localUrl := localUrl, width := opt.width,
                height := opt.height, format := opt.format,
                size := opt.size, srcset := srcset }

/-- An outcome that pushed a record. -/
def isProcessedOutcome : ImgOutcome → Bool
  | ImgOutcome.processed _ _ _ _ _ => true
  | _ => false

/-- The per-image loop with `optimizedImages.length` threaded through:
`count` increases exactly on processed outcomes. -/
def optimizeLoopGo (md5hex8 : String → String)
    (transcode : String → Option Nat → Option Nat → String → Nat →
      Option Transcoded)
    (fetchOk : String → Bool) (cfg : ImgCfg) :
    List ImgInfo → Nat → List ImgOutcome
  | [], _ => []
  | img :: rest, count =>
      let o := processOneImage md5hex8 transcode cfg img (fetchOk img.url)
        count
      o :: optimizeLoopGo md5hex8 transcode fetchOk cfg rest
        (if isProcessedOutcome o then count + 1 else count)

/-- The full processing loop of `optimizeImages`, starting with an empty
`optimizedImages` list. -/
def optimizeImagesLoop (md5hex8 : String → String)
    (transcode : String → Option Nat → Option Nat → String → Nat →
      Option Transcoded)
    (fetchOk : String → Bool) (cfg : ImgCfg) (images : List ImgInfo) :
    List ImgOutcome :=
  optimizeLoopGo md5hex8 transcode fetchOk cfg images 0

/-- The number of processed outcomes (records pushed). -/
def successesIn (outs : List ImgOutcome) : Nat :=
  (outs.filter isProcessedOutcome).length

/-- `generateImagePreloads` (browser.ts, lines 417-427). -/
def generateImagePreloads (images : List OptimizedImage) (maxImages : Nat) :
    String :=
  String.intercalate "\n    " ((images.take maxImages).map (fun img =>
    let type :=
      if img.format == "webp" then "image/webp"
      else if img.format == "avif" then "image/avif"
      else "image/jpeg"
    "<link rel=\"preload\" as=\"image\" href=\"" ++ img.localUrl
      ++ "\" type=\"" ++ type ++ "\" fetchpriority=\"high\">"))

theorem successesIn_nil : successesIn [] = 0 := rfl

theorem successesIn_cons (o : ImgOutcome) (l : List ImgOutcome) :
    successesIn (o :: l)
      = (if isProcessedOutcome o then 1 else 0) + successesIn l := by
  cases ho : isProcessedOutcome o with
  | true => simp [successesIn, List.filter_cons, ho]; omega
  | false => simp [successesIn, List.filter_cons, ho]

theorem processOne_lazy_spec (md5hex8 : String → String)
    (transcode : String → Option Nat → Option Nat → String → Nat →
      Option Transcoded)
    (cfg : ImgCfg) (img : ImgInfo) (dl : Bool) (count : Nat) (pre : String)
    (lz : Bool) (fin : String) (ws : List String) (rec : OptimizedImage)
    (h : processOneImage md5hex8 transcode cfg img dl count
      = ImgOutcome.processed pre lz fin ws rec) :
    lz = (!(hasSubstr pre "loading=") && decide (count + 1 > 4))
    ∧ fin = (if lz = true
        then replaceFirstBy pre matchImgTagAt lazyLoadingRepl else pre) := by
  unfold processOneImage at h
  cases he : img.isExternal with
  | false => rw [he] at h; simp at h
  | true =>
      rw [he] at h
      cases hd : dl with
      | false => rw [hd] at h; simp at h
      | true =>
          rw [hd] at h
          simp only [Bool.not_true, Bool.false_eq_true, if_false] at h
          cases htr : transcode img.url img.width img.height
              (cfg.formats.headD "webp") cfg.quality with
          | none => rw [htr] at h; simp at h
          | some opt =>
              rw [htr] at h
              dsimp only at h
              split at h
              · simp at h
              · injection h with h1 h2 h3 h4 h5
                subst h1
                subst h2
                subst h3
                exact ⟨rfl, rfl⟩

theorem optimizeLoopGo_spec (md5hex8 : String → String)
    (transcode : String → Option Nat → Option Nat → String → Nat →
      Option Transcoded)
    (fetchOk : String → Bool) (cfg : ImgCfg) :
    ∀ (images : List ImgInfo) (count i : Nat) (pre : String) (lz : Bool)
      (fin : String) (ws : List String) (rec : OptimizedImage),
    (optimizeLoopGo md5hex8 transcode fetchOk cfg images count).get? i
      = some (ImgOutcome.processed pre lz fin ws rec) →
    lz = (!(hasSubstr pre "loading=")
      && decide (count + successesIn
          ((optimizeLoopGo md5hex8 transcode fetchOk cfg images count).take i)
        + 1 > 4))
    ∧ fin = (if lz = true
        then replaceFirstBy pre matchImgTagAt lazyLoadingRepl else pre) := by
  intro images
  induction images with
  | nil =>
      intro count i pre lz fin ws rec h
      simp [optimizeLoopGo] at h
  | cons img rest ih =>
      intro count i pre lz fin ws rec h
      cases i with
      | zero =>
          have h0 : processOneImage md5hex8 transcode cfg img
              (fetchOk img.url) count
              = ImgOutcome.processed pre lz fin ws rec := by
            simpa [optimizeLoopGo] using h
          have hsp := processOne_lazy_spec md5hex8 transcode cfg img
            (fetchOk img.url) count pre lz fin ws rec h0
          simpa [successesIn] using hsp
      | succ i =>
          have h2 : (optimizeLoopGo md5hex8 transcode fetchOk cfg rest
              (if isProcessedOutcome (processOneImage md5hex8 transcode cfg
                  img (fetchOk img.url) count)
               then count + 1 else count)).get? i
              = some (ImgOutcome.processed pre lz fin ws rec) := by
            simpa [optimizeLoopGo] using h
          obtain ⟨hlz, hfin⟩ := ih
            (if isProcessedOutcome (processOneImage md5hex8 transcode cfg img
                (fetchOk img.url) count)
             then count + 1 else count) i pre lz fin ws rec h2
          refine ⟨?_, hfin⟩
          rw [hlz]
          have hnat :
              (if isProcessedOutcome (processOneImage md5hex8 transcode cfg
                  img (fetchOk img.url) count)
               then count + 1 else count)
                + successesIn ((optimizeLoopGo md5hex8 transcode fetchOk cfg
                    rest
                    (if isProcessedOutcome (processOneImage md5hex8 transcode
                        cfg img (fetchOk img.url) count)
                     then count + 1 else count)).take i) + 1
              = count + successesIn ((optimizeLoopGo md5hex8 transcode
                  fetchOk cfg (img :: rest) count).take (i + 1)) + 1 := by
            simp only [optimizeLoopGo, List.take_succ_cons, successesIn_cons]
            cases hio : isProcessedOutcome (processOneImage md5hex8 transcode
                cfg img (fetchOk img.url) count) with
            | true => simp [hio]; omega
            | false => simp [hio]
          rw [hnat]

/-- **C3** (amended).  In the processing loop of `optimizeImages`, a
successfully optimized remote image is marked `loading="lazy"` iff its
rewritten element does not already contain `loading=` and it is beyond the
first **4** successfully optimized images — the threshold is the constant
`4` hardcoded at browser.ts line 382, not the configured `lcpImageCount`
(which `generateStaticPage` forwards only to `generateImagePreloads`, never
into `optimizeImages`; note that the resolved configuration appears below
only through `optimizeImagesCallOptions`, which drops `lcpImageCount`). -/
theorem C3_theorem_lazy_threshold (md5hex8 : String → String)
    (transcode : String → Option Nat → Option Nat → String → Nat →
      Option Transcoded)
    (fetchOk : String → Bool) (config : ResolvedSsgConfig)
    (images : List ImgInfo) (i : Nat) (pre : String) (lz : Bool)
    (fin : String) (ws : List String) (rec : OptimizedImage)
    (h : (optimizeImagesLoop md5hex8 transcode fetchOk
        (optimizeImagesCallOptions config) images).get? i
      = some (ImgOutcome.processed pre lz fin ws rec)) :
    lz = (!(hasSubstr pre "loading=")
      && decide (successesIn ((optimizeImagesLoop md5hex8 transcode fetchOk
          (optimizeImagesCallOptions config) images).take i) + 1 > 4))
    ∧ fin = (if lz = true
        then replaceFirstBy pre matchImgTagAt lazyLoadingRepl else pre) := by
  have hs := optimizeLoopGo_spec md5hex8 transcode fetchOk
    (optimizeImagesCallOptions config) images 0 i pre lz fin ws rec h
  simpa [optimizeImagesLoop] using hs

/-- A fixed md5 oracle for the concrete examples. -/
def exampleMd5 : String → String := fun _ => "abcd1234"

/-- A concrete transcoder oracle: echoes the requested width (else 9),
height 9, format `webp`, 7 bytes. -/
def exampleTranscode :
    String → Option Nat → Option Nat → String → Nat → Option Transcoded :=
  fun _ w _ _ _ => some { width := w.getD 9, height := 9, format := "webp",
                          size := 7 }

/-- The default configuration with `lcpImageCount` set to `0`. -/
def exampleLcp0Config : ResolvedSsgConfig :=
  { defaultResolvedConfig with
    images := { defaultResolvedConfig.images with lcpImageCount := 0 } }

/-- A single remote image occurrence with a declared width. -/
def exampleImage : ImgInfo :=
  { url := "https://example.com/pic.jpg", width := some 400, height := none,
    isExternal := true,
    element := "<img src=\"https://example.com/pic.jpg\" width=\"400\">" }

/-- Lazy flag of a processed outcome, paired with whether its pre-lazy
element already contained `loading=`. -/
def lazyAndPre : ImgOutcome → Option (Bool × Bool)
  | ImgOutcome.processed pre lz _ _ _ =>
      some (lz, hasSubstr pre "loading=")
  | _ => none

/-- **C3** — counterexample.  With the image option `lcpImageCount := 0`,
the claim says the first successfully optimized remote image (it is beyond
the configured above-the-fold count `0`, and its rewritten element carries
no `loading` attribute) must be marked lazily loaded.  The code leaves it
eager: the lazy flag is `false`, because the hardcoded threshold is `4`. -/
theorem C3_counterexample :
    exampleLcp0Config.images.lcpImageCount = 0
    ∧ (optimizeImagesLoop exampleMd5 exampleTranscode (fun _ => true)
        (optimizeImagesCallOptions exampleLcp0Config) [exampleImage]).map
        lazyAndPre
      = [some (false, false)] :=
  ⟨rfl, rfl⟩

/-- The default configuration with srcset generation turned off (keeps the
witness elements small). -/
def exampleNoSrcsetConfig : ResolvedSsgConfig :=
  { defaultResolvedConfig with
    images := { defaultResolvedConfig.images with generateSrcset := false } }

/-- The n-th of the example images. -/
def exampleImgN (n : Nat) : ImgInfo :=
  { url := "http://e.com/a" ++ toString n ++ ".png",
    width := some 10, height := none, isExternal := true,
    element := "<img src=\"http://e.com/a" ++ toString n
      ++ ".png\" width=\"10\">" }

/-- Five successfully optimized remote images. -/
def exampleFiveImages : List ImgInfo :=
  [exampleImgN 1, exampleImgN 2, exampleImgN 3, exampleImgN 4, exampleImgN 5]

/-- The rewritten (pre-lazy) element of the fifth example image. -/
def examplePre5 : String :=
  "<img src=\"/static/images/a5_abcd1234_10w.webp\" width=\"10\">"

/-- The final element of the fifth example image, with the lazy marker. -/
def exampleFin5 : String :=
  "<img loading=\"lazy\" src=\"/static/images/a5_abcd1234_10w.webp\" width=\"10\">"

/-- The record pushed for the fifth example image. -/
def exampleRec5 : OptimizedImage :=
  { originalUrl := "http://e.com/a5.png",
    localPath := "dist/static/images/a5_abcd1234_10w.webp",
    localUrl := "/static/images/a5_abcd1234_10w.webp",
    width := 10, height := 9, format := "webp", size := 7, srcset := none }

/-- **C3** — witness: the amended theorem applied to the fifth successfully
optimized image of a five-image run (index 4): it is beyond the first four,
its element has no `loading` attribute, and it is marked lazy. -/
theorem C3_witness :
    true = (!(hasSubstr examplePre5 "loading=")
      && decide (successesIn ((optimizeImagesLoop exampleMd5
          exampleTranscode (fun _ => true)
          (optimizeImagesCallOptions exampleNoSrcsetConfig)
          exampleFiveImages).take 4) + 1 > 4))
    ∧ exampleFin5
      = (if (true : Bool) = true
         then replaceFirstBy examplePre5 matchImgTagAt lazyLoadingRepl
         else examplePre5) :=
  C3_theorem_lazy_threshold exampleMd5 exampleTranscode (fun _ => true)
    exampleNoSrcsetConfig exampleFiveImages 4 examplePre5 true exampleFin5
    ["a5_abcd1234_10w.webp"] exampleRec5 rfl

/-- **C9** (confirmed).  (1) The output filename is a deterministic
function of the source URL, target width and output format: two images with
equal URL and width map to the identical filename (the `node:crypto` md5 of
the URL is itself a pure function, passed here as the `md5hex8`
collaborator).  (2) During srcset generation within one run, the loop
writes a variant only when its computed filename differs from the primary
image's filename — the primary filename never reappears among the srcset
writes, so a colliding variant (e.g. the 1x multiplier) is not written to
disk a second time. -/
theorem C9_theorem_filename_determinism :
    (∀ (md5hex8 : String → String) (i j : ImgInfo) (fmt : String),
      i.url = j.url → i.width = j.width →
      generateFilename md5hex8 i.url i.width fmt
        = generateFilename md5hex8 j.url j.width fmt)
    ∧ (∀ (md5hex8 : String → String)
        (transcode : String → Option Nat → Option Nat → String → Nat →
          Option Transcoded)
        (baseUrl url : String) (width : Nat) (primaryFormat : String)
        (quality : Nat) (primaryFilename : String) (multipliers : List Nat),
      ((srcsetLoop md5hex8 transcode baseUrl url width primaryFormat quality
          primaryFilename multipliers).1).any
        (fun f => f == primaryFilename) = false) := by
  constructor
  · intro md5hex8 i j fmt hu hw
    rw [hu, hw]
  · intro md5hex8 transcode baseUrl url width primaryFormat quality
      primaryFilename multipliers
    induction multipliers with
    | nil => rfl
    | cons m rest ih =>
        simp only [srcsetLoop]
        cases htr : transcode url (some (width * m)) none primaryFormat
            quality with
        | none => rfl
        | some sopt =>
            dsimp only
            cases hg : (generateFilename md5hex8 url (some (width * m))
                sopt.format == primaryFilename) with
            | true => simpa [hg] using ih
            | false => simp [hg, ih]

/-- **C9** — witness: the determinism conjunct applied to two occurrences
of the same URL at the same width, and the srcset-skip conjunct applied to
a run whose 1x multiplier collides with the primary filename — only the 2x
variant is written. -/
theorem C9_witness :
    generateFilename exampleMd5 "https://example.com/pic.jpg" (some 400)
        "webp"
      = generateFilename exampleMd5 "https://example.com/pic.jpg" (some 400)
        "webp"
    ∧ ((srcsetLoop exampleMd5 exampleTranscode "/static"
          "https://example.com/pic.jpg" 400 "webp" 80
          "pic_abcd1234_400w.webp" [1, 2]).1).any
        (fun f => f == "pic_abcd1234_400w.webp") = false
    ∧ generateFilename exampleMd5 "https://example.com/pic.jpg"
        (some (400 * 1)) "webp" = "pic_abcd1234_400w.webp"
    ∧ (srcsetLoop exampleMd5 exampleTranscode "/static"
        "https://example.com/pic.jpg" 400 "webp" 80
        "pic_abcd1234_400w.webp" [1, 2]).1
      = ["pic_abcd1234_800w.webp"] :=
  ⟨C9_theorem_filename_determinism.1 exampleMd5 exampleImage exampleImage
      "webp" rfl rfl,
    C9_theorem_filename_determinism.2 exampleMd5 exampleTranscode "/static"
      "https://example.com/pic.jpg" 400 "webp" 80 "pic_abcd1234_400w.webp"
      [1, 2],
    rfl, rfl⟩
